import Mathlib

/-!
Verification of the version-management engine of the image-collector
repository (`src/image_db/database.py`, class `ImageDatabase`).

The SQLite store is embedded shallowly: every table is a list of rows
(child tables are lists of `(owner_id, payload)` pairs, in rowid order,
so appends model SQL `INSERT` and filters model SQL `DELETE`), and every
lifecycle operation of the Python class is a pure Lean function on the
whole store state.  A `with sqlite3.connect(...)` block that raises is a
rolled-back transaction, so an operation that fails returns the input
state unchanged.

Input dictionaries are embedded as structures of `Option` fields: `none`
is an absent key; a JSON `null` for a collection collapses to the empty
list exactly as Python's `update_data[k] or []` does; dictionary entries
for postal addresses and social profiles are structures of plain strings
because the code reads them with `dict.get(key, '')`, which folds both a
missing key and an empty value to `''`.
-/

set_option maxHeartbeats 1000000

/-- A row of `version_postal_addresses` / `postal_addresses`
(`database.py`, `init_db`): eight text columns besides the ids. -/
structure PostalAddress where
  street : String := ""
  sub_locality : String := ""
  city : String := ""
  sub_administrative_area : String := ""
  state : String := ""
  postal_code : String := ""
  country : String := ""
  iso_country_code : String := ""
deriving DecidableEq

/-- A row of `version_social_profiles` / `social_profiles`:
service, url and username. -/
structure SocialProfile where
  service : String := ""
  url : String := ""
  username : String := ""
deriving DecidableEq

/-- The eight flat name/work columns shared by the `images` table and the
`version_data` table (`name_prefix` ... `organization_name`).  All are
nullable TEXT columns, hence `Option String`. -/
structure VersionData where
  name_prefix : Option String := none
  given_name : Option String := none
  middle_name : Option String := none
  family_name : Option String := none
  name_suffix : Option String := none
  job_title : Option String := none
  department : Option String := none
  organization_name : Option String := none
deriving DecidableEq

/-- A row of the `images` table (base entity).  The on-disk image file and
its path handling are I/O glue outside the engine; the columns the engine
reads are kept. -/
structure ImageRow where
  id : Nat
  filename : String
  file_path : String
  hash : String
  date_added : Nat
  source : String
  flat : VersionData
deriving DecidableEq

/-- A row of the `image_versions` table.  `created_at` is an abstract
timestamp (`CURRENT_TIMESTAMP` at insertion time). -/
structure VersionRow where
  id : Nat
  image_id : Nat
  tag : String
  created_at : Nat
  notes : Option String := none
  is_active : Bool := false
deriving DecidableEq

/-- A row of the `version_metadata` provenance table (besides the ids). -/
structure ProvenanceRow where
  model_id : Option String := none
  program_id : Option String := none
  program_name : Option String := none
  program_version : Option String := none
  provider : Option String := none
  base_model : Option String := none
  execution_id : Option String := none
  extracted_at : Option Nat := none
deriving DecidableEq

/-- The whole SQLite store.  Child tables are `(owner_id, payload)` lists in
rowid order.  `next_image_id` / `next_version_id` model the AUTOINCREMENT
counters of `images` / `image_versions`. -/
structure DBState where
  images : List ImageRow := []
  phone_numbers : List (Nat × String) := []
  email_addresses : List (Nat × String) := []
  postal_addresses : List (Nat × PostalAddress) := []
  url_addresses : List (Nat × String) := []
  social_profiles : List (Nat × SocialProfile) := []
  image_versions : List VersionRow := []
  version_data : List (Nat × VersionData) := []
  version_phone_numbers : List (Nat × String) := []
  version_email_addresses : List (Nat × String) := []
  version_postal_addresses : List (Nat × PostalAddress) := []
  version_url_addresses : List (Nat × String) := []
  version_social_profiles : List (Nat × SocialProfile) := []
  version_metadata : List (Nat × ProvenanceRow) := []
  next_image_id : Nat := 1
  next_version_id : Nat := 1
deriving DecidableEq

/-- `SELECT payload FROM tbl WHERE owner = k` (all rows, rowid order). -/
def rowsAt {α : Type} (tbl : List (Nat × α)) (k : Nat) : List α :=
  (tbl.filter (fun r => r.1 == k)).map (fun r => r.2)

/-- `rowsAt` for a possibly-negative key, as `_copy_version_data` receives
its `source_version_id` (the sentinel `-1` matches no row). -/
def rowsAtI {α : Type} (tbl : List (Nat × α)) (k : Int) : List α :=
  (tbl.filter (fun r => Int.ofNat r.1 == k)).map (fun r => r.2)

/-- `SELECT ... WHERE owner = k LIMIT 1` (first row). -/
def lookupRow {α : Type} (tbl : List (Nat × α)) (k : Nat) : Option α :=
  (tbl.find? (fun r => r.1 == k)).map (fun r => r.2)

/-- `lookupRow` for a possibly-negative key. -/
def lookupRowI {α : Type} (tbl : List (Nat × α)) (k : Int) : Option α :=
  (tbl.find? (fun r => Int.ofNat r.1 == k)).map (fun r => r.2)

/-- `DELETE FROM tbl WHERE owner = k`. -/
def removeKey {α : Type} (tbl : List (Nat × α)) (k : Nat) : List (Nat × α) :=
  tbl.filter (fun r => r.1 != k)

/-- `SELECT ... FROM image_versions WHERE id = ?` with the id supplied as a
Python int that may be negative (`create_version` passes `-1` on its
no-source path). -/
def findVersionI (vs : List VersionRow) (k : Int) : Option VersionRow :=
  vs.find? (fun v => Int.ofNat v.id == k)

/-- The per-group result of the copy engine's two-tier fallback: the rows
copied into the target are the source version's rows when the first
`INSERT ... SELECT` copied a nonzero `rowcount`, otherwise the base
entity's rows (`_copy_version_data`, steps 2-6). -/
def copiedGroup {α : Type} (vtbl : List (Nat × α)) (btbl : List (Nat × α))
    (src : Int) (iid : Nat) : List α :=
  if (rowsAtI vtbl src).isEmpty then rowsAt btbl iid else rowsAtI vtbl src

/-- `_copy_version_data(conn, source_version_id, target_version_id)`.

If the source version id does not resolve, the function logs and returns
with no mutation (the early `return` at the top of the `try` block).
Otherwise: the flat `version_data` row is copied with `INSERT OR REPLACE`
(from the source's row if present, else from the owning base image's
columns), and each of the five child collections is appended from the
source version, falling back to the base image's rows when the source
had none.  Each SQL statement reads only tables no earlier statement of
the function wrote, so the sequential statements are embedded as one
simultaneous record update. -/
def copy_version_data (st : DBState) (source_version_id : Int)
    (target_version_id : Nat) : DBState :=
  match findVersionI st.image_versions source_version_id with
  | none => st
  | some sv =>
    { st with
      version_data :=
        match lookupRowI st.version_data source_version_id with
        | some d => removeKey st.version_data target_version_id ++ [(target_version_id, d)]
        | none =>
          match st.images.find? (fun im => im.id == sv.image_id) with
          | some im => removeKey st.version_data target_version_id ++ [(target_version_id, im.flat)]
          | none => st.version_data
      version_phone_numbers := st.version_phone_numbers ++
        (copiedGroup st.version_phone_numbers st.phone_numbers source_version_id sv.image_id).map
          (fun x => (target_version_id, x))
      version_email_addresses := st.version_email_addresses ++
        (copiedGroup st.version_email_addresses st.email_addresses source_version_id sv.image_id).map
          (fun x => (target_version_id, x))
      version_postal_addresses := st.version_postal_addresses ++
        (copiedGroup st.version_postal_addresses st.postal_addresses source_version_id sv.image_id).map
          (fun x => (target_version_id, x))
      version_url_addresses := st.version_url_addresses ++
        (copiedGroup st.version_url_addresses st.url_addresses source_version_id sv.image_id).map
          (fun x => (target_version_id, x))
      version_social_profiles := st.version_social_profiles ++
        (copiedGroup st.version_social_profiles st.social_profiles source_version_id sv.image_id).map
          (fun x => (target_version_id, x)) }

/-- The blank `version_data` row `create_version` inserts when
`create_blank` is true: every flat field present but equal to `''`. -/
def blankVersionData : VersionData :=
  { name_prefix := some ""
    given_name := some ""
    middle_name := some ""
    family_name := some ""
    name_suffix := some ""
    job_title := some ""
    department := some ""
    organization_name := some "" }

/-- The row `create_version` inserts: `is_active = TRUE`,
`created_at = CURRENT_TIMESTAMP`. -/
def newVersionRow (iid vid : Nat) (tag : String) (notes : Option String)
    (now : Nat) : VersionRow :=
  { id := vid, image_id := iid, tag := tag, created_at := now,
    notes := notes, is_active := true }

/-- `UPDATE image_versions SET is_active = FALSE WHERE image_id = ? AND
id != ?`, applied to one row. -/
def deactOther (iid vid : Nat) (v : VersionRow) : VersionRow :=
  if v.image_id == iid && v.id != vid then { v with is_active := false } else v

/-- `UPDATE image_versions SET is_active = TRUE WHERE id = ?`, applied to
one row. -/
def activateRow (vid : Nat) (u : VersionRow) : VersionRow :=
  if u.id == vid then { u with is_active := true } else u

/-- `create_version`'s first two statements on `image_versions`: insert the
new row active, then `UPDATE ... SET is_active = FALSE WHERE image_id = ?
AND id != ?`. -/
def insertActiveVersion (vs : List VersionRow) (iid vid : Nat) (tag : String)
    (notes : Option String) (now : Nat) : List VersionRow :=
  (vs ++ [newVersionRow iid vid tag notes now]).map (deactOther iid vid)

/-- The exceptions `create_version` raises (`ValueError`); raising rolls the
transaction back. -/
inductive CreateError where
  | imageNotFound (image_id : Nat)
  | sourceNotFound (source_version_id : Nat)
deriving DecidableEq

/-- `create_version(image_id, tag, source_version_id, notes, create_blank)`.
`now` stands for `CURRENT_TIMESTAMP`.  Returns the new version id and the
new store, or the raised error (store unchanged: the transaction rolls
back). -/
def create_version (st : DBState) (image_id : Nat) (tag : String)
    (source_version_id : Option Nat) (notes : Option String)
    (create_blank : Bool) (now : Nat) : Except CreateError (Nat × DBState) :=
  if !(st.images.any (fun im => im.id == image_id)) then
    Except.error (CreateError.imageNotFound image_id)
  else
    let vid := st.next_version_id
    let st1 : DBState :=
      { st with
        image_versions := insertActiveVersion st.image_versions image_id vid tag notes now
        next_version_id := vid + 1 }
    if create_blank then
      Except.ok (vid, { st1 with version_data := st1.version_data ++ [(vid, blankVersionData)] })
    else
      match source_version_id with
      | some s =>
        if !(st1.image_versions.any (fun v => v.id == s)) then
          Except.error (CreateError.sourceNotFound s)
        else
          Except.ok (vid, copy_version_data st1 (Int.ofNat s) vid)
      | none =>
        -- "Use an invalid source ID to trigger base image copy"
        Except.ok (vid, copy_version_data st1 (-1) vid)

/-- The argument dictionary of `update_version` (and of `update_image`),
as produced by the HTTP layer's `model_dump(exclude_unset=True)`: an
absent key is `none`.  Flat fields and `notes` can be present-and-null
(`Option (Option String)`); for the collection keys a JSON `null` behaves
exactly like `[]` (the code reads `update_data[k] or []`), so both are
embedded as `some []`. -/
structure UpdateData where
  name_prefix : Option (Option String) := none
  given_name : Option (Option String) := none
  middle_name : Option (Option String) := none
  family_name : Option (Option String) := none
  name_suffix : Option (Option String) := none
  job_title : Option (Option String) := none
  department : Option (Option String) := none
  organization_name : Option (Option String) := none
  phone_numbers : Option (List String) := none
  email_addresses : Option (List String) := none
  postal_addresses : Option (List PostalAddress) := none
  url_addresses : Option (List String) := none
  social_profiles : Option (List SocialProfile) := none
  tag : Option String := none
  notes : Option (Option String) := none
  is_active : Option Bool := none
deriving DecidableEq

/-- `update_version`'s `version_update_fields` filter is nonempty: at least
one of the eight `main_fields` keys is supplied. -/
def hasMainFields (u : UpdateData) : Bool :=
  ( UpdateData.name_prefix u).isSome || u.given_name.isSome || u.middle_name.isSome ||
  u.family_name.isSome || u.name_suffix.isSome || u.job_title.isSome ||
  u.department.isSome || u.organization_name.isSome

/-- Apply the supplied flat fields to a `version_data` row (the SQL
`UPDATE version_data SET <supplied> WHERE version_id = ?`); unsupplied
columns keep their row value. -/
def applyMainFields (u : UpdateData) (d : VersionData) : VersionData :=
  { name_prefix := ( UpdateData.name_prefix u).getD ( VersionData.name_prefix d)
    given_name := u.given_name.getD d.given_name
    middle_name := u.middle_name.getD d.middle_name
    family_name := u.family_name.getD d.family_name
    name_suffix := u.name_suffix.getD d.name_suffix
    job_title := u.job_title.getD d.job_title
    department := u.department.getD d.department
    organization_name := u.organization_name.getD d.organization_name }

/-- `update_version`'s flat-field upsert: update the existing
`version_data` row if there is one, otherwise insert a new row whose
unsupplied columns are NULL. -/
def updMainGroup (u : UpdateData) (tbl : List (Nat × VersionData))
    (vid : Nat) : List (Nat × VersionData) :=
  if hasMainFields u then
    match tbl.find? (fun r => r.1 == vid) with
    | some _ => tbl.map (fun r => if r.1 == vid then (r.1, applyMainFields u r.2) else r)
    | none => tbl ++ [(vid, applyMainFields u {})]
  else tbl

/-- Python's `str.strip()`: drop leading and trailing whitespace.  Written
over the character list so that it evaluates inside the kernel
(`String.trim` itself does not reduce there). -/
def pyStrip (s : String) : String :=
  ⟨((s.data.dropWhile Char.isWhitespace).reverse.dropWhile Char.isWhitespace).reverse⟩

/-- The insert filter for phones / emails / URLs:
`if x and x.strip(): insert(x.strip())` — blank entries skipped, the rest
stripped of surrounding whitespace. -/
def cleanStrEntries (xs : List String) : List String :=
  (xs.filter (fun s => !(pyStrip s == ""))).map (fun s => pyStrip s)

/-- A postal-address dictionary is skipped when no field besides the ids
carries a truthy value. -/
def postalIsEmpty (a : PostalAddress) : Bool :=
  a.street == "" && a.sub_locality == "" && a.city == "" &&
  a.sub_administrative_area == "" && a.state == "" && a.postal_code == "" &&
  a.country == "" && a.iso_country_code == ""

/-- `update_version` on one of the phone/email/URL collections: absent key
is a no-op; a supplied list means `DELETE` the version's rows then insert
the cleaned entries. -/
def updStrGroup (o : Option (List String)) (tbl : List (Nat × String))
    (vid : Nat) : List (Nat × String) :=
  match o with
  | none => tbl
  | some xs => removeKey tbl vid ++ (cleanStrEntries xs).map (fun s => (vid, s))

/-- `update_version` on `postal_addresses`: delete-then-reinsert, skipping
all-empty address rows. -/
def updPostalGroup (o : Option (List PostalAddress))
    (tbl : List (Nat × PostalAddress)) (vid : Nat) : List (Nat × PostalAddress) :=
  match o with
  | none => tbl
  | some xs => removeKey tbl vid ++ (xs.filter (fun a => !(postalIsEmpty a))).map (fun a => (vid, a))

/-- `update_version` on `social_profiles`: delete-then-reinsert; every
dictionary element is inserted (missing fields already defaulted to `''`
by `profile.get`), with no emptiness filter. -/
def updSocialGroup (o : Option (List SocialProfile))
    (tbl : List (Nat × SocialProfile)) (vid : Nat) : List (Nat × SocialProfile) :=
  match o with
  | none => tbl
  | some xs => removeKey tbl vid ++ xs.map (fun p => (vid, p))

/-- At least one of `tag`, `notes`, `is_active` is supplied. -/
def hasMetaFields (u : UpdateData) : Bool :=
  u.tag.isSome || u.notes.isSome || u.is_active.isSome

/-- `UPDATE image_versions SET <supplied meta fields> WHERE id = ?`. -/
def applyMetaFields (u : UpdateData) (v : VersionRow) : VersionRow :=
  { v with
    tag := u.tag.getD v.tag
    notes := u.notes.getD v.notes
    is_active := u.is_active.getD v.is_active }

/-- The first SQL statement of `update_version`'s metadata step:
`UPDATE image_versions SET <supplied> WHERE id = ?` over the table. -/
def updMetaApplied (u : UpdateData) (vs : List VersionRow) (vid : Nat) :
    List VersionRow :=
  vs.map (fun v => if v.id == vid then applyMetaFields u v else v)

/-- `update_version`'s version-row step: apply the supplied meta fields,
and only when the supplied `is_active` is truthy, fetch the row's
`image_id` and deactivate the siblings. -/
def updMetaGroup (u : UpdateData) (vs : List VersionRow) (vid : Nat) :
    List VersionRow :=
  if hasMetaFields u then
    if u.is_active == some true then
      match (updMetaApplied u vs vid).find? (fun v => v.id == vid) with
      | some v0 => (updMetaApplied u vs vid).map (deactOther v0.image_id vid)
      | none => updMetaApplied u vs vid
    else updMetaApplied u vs vid
  else vs

/-- `update_version(version_id, update_data)`.  Fails (returning `False`
with the transaction rolled back) when the version does not exist;
otherwise applies each supplied field group.  The sequential SQL blocks
touch pairwise disjoint tables, so they are embedded as one simultaneous
record update. -/
def update_version (st : DBState) (version_id : Nat) (upd : UpdateData) :
    Bool × DBState :=
  if !(st.image_versions.any (fun v => v.id == version_id)) then (false, st)
  else
    (true, { st with
      version_data := updMainGroup upd st.version_data version_id
      version_phone_numbers := updStrGroup upd.phone_numbers st.version_phone_numbers version_id
      version_email_addresses := updStrGroup upd.email_addresses st.version_email_addresses version_id
      version_postal_addresses := updPostalGroup upd.postal_addresses st.version_postal_addresses version_id
      version_url_addresses := updStrGroup upd.url_addresses st.version_url_addresses version_id
      version_social_profiles := updSocialGroup upd.social_profiles st.version_social_profiles version_id
      image_versions := updMetaGroup upd st.image_versions version_id })

/-- `set_active_version(version_id)`: read the version's `image_id`, set the
version active, then deactivate the siblings.  `False` when the version
does not exist. -/
def set_active_version (st : DBState) (version_id : Nat) : Bool × DBState :=
  match st.image_versions.find? (fun v => v.id == version_id) with
  | none => (false, st)
  | some v =>
    let vs1 := st.image_versions.map (activateRow version_id)
    let vs2 := vs1.map (deactOther v.image_id version_id)
    (true, { st with image_versions := vs2 })

/-- `utils.OperationResult`: a success flag, or an `error_type` string with
a message (`not_found` is `error("not_found", msg)`). -/
inductive OperationResult where
  | success
  | opError (error_type : String) (error_message : String)
deriving DecidableEq

/-- `_delete_version_data(conn, version_id)`: delete the version's rows
from the five child tables, `version_data`, `version_metadata`, then the
version row itself. -/
def delete_version_data (st : DBState) (version_id : Nat) : DBState :=
  { st with
    version_phone_numbers := removeKey st.version_phone_numbers version_id
    version_email_addresses := removeKey st.version_email_addresses version_id
    version_postal_addresses := removeKey st.version_postal_addresses version_id
    version_url_addresses := removeKey st.version_url_addresses version_id
    version_social_profiles := removeKey st.version_social_profiles version_id
    version_data := removeKey st.version_data version_id
    version_metadata := removeKey st.version_metadata version_id
    image_versions := st.image_versions.filter (fun v => v.id != version_id) }

/-- `_set_new_active_version` on the version list: `UPDATE image_versions
SET is_active = TRUE WHERE id = (SELECT id ... WHERE image_id = ? ORDER BY
created_at DESC LIMIT 1)`.  SQLite leaves the choice among equal
`created_at` values unspecified; `List.argmax` picks one maximal row,
which coincides with SQLite whenever the maximum is unique. -/
def setNewActiveL (vs : List VersionRow) (iid : Nat) : List VersionRow :=
  match (vs.filter (fun v => v.image_id == iid)).argmax (fun v => v.created_at) with
  | none => vs
  | some w => vs.map (activateRow w.id)

/-- `_set_new_active_version(conn, image_id)`. -/
def set_new_active_version (st : DBState) (iid : Nat) : DBState :=
  { st with image_versions := setNewActiveL st.image_versions iid }

/-- `delete_version(version_id)`: `not_found` when absent; the
`only_version` guard when the entity has no other version; otherwise
delete the version's rows and, when it was active, promote the most
recently created remaining sibling — all in one transaction. -/
def delete_version (st : DBState) (version_id : Nat) : OperationResult × DBState :=
  match st.image_versions.find? (fun v => v.id == version_id) with
  | none =>
    (OperationResult.opError "not_found" ("Version " ++ toString version_id ++ " not found"), st)
  | some v =>
    if st.image_versions.countP (fun u => u.image_id == v.image_id) ≤ 1 then
      (OperationResult.opError "only_version"
        ("Cannot delete the only version for image " ++ toString v.image_id), st)
    else
      let st1 := delete_version_data st version_id
      (OperationResult.success, if v.is_active then set_new_active_version st1 v.image_id else st1)

/-- `save_image(image_data, metadata, source)`, database part (the image
file handling and PIL validation are I/O glue; `image_hash` is the
SHA-256 the code computes from the bytes, `metadata_flat` the eight
`metadata.get(...)` name/work fields).  A stored row with the same hash
makes it return `False` before inserting anything.  Otherwise the image
row is inserted and committed, and the initial version is created with
`create_version(image_id, tag="original", create_blank=False)`; a failure
there is logged but `save_image` still returns `True` with the image row
kept. -/
def save_image (st : DBState) (image_hash : String) (filename : String)
    (metadata_flat : VersionData) (source : String) (now : Nat) : Bool × DBState :=
  if st.images.any (fun im => im.hash == image_hash) then (false, st)
  else
    let iid := st.next_image_id
    let row : ImageRow :=
      { id := iid, filename := filename, file_path := filename, hash := image_hash,
        date_added := now, source := source, flat := metadata_flat }
    let st1 : DBState :=
      { st with
        images := st.images ++ [row]
        next_image_id := iid + 1 }
    match create_version st1 iid "original" none (some "Initial version") false now with
    | Except.ok (_, st2) => (true, st2)
    | Except.error _ => (true, st1)

/-- Number of active versions an entity has. -/
def countActive (vs : List VersionRow) (iid : Nat) : Nat :=
  vs.countP (fun v => v.image_id == iid && v.is_active)

/-- The spec's active-version invariant on a version list: every entity
that owns at least one version has exactly one active version. -/
def singleActiveL (vs : List VersionRow) : Prop :=
  ∀ v ∈ vs, countActive vs v.image_id = 1

/-- The spec's active-version invariant on a store. -/
def SingleActive (st : DBState) : Prop :=
  singleActiveL st.image_versions

/-- Store well-formedness maintained by the engine: version ids are unique
(AUTOINCREMENT primary key) and below the next AUTOINCREMENT value. -/
def WF (st : DBState) : Prop :=
  (st.image_versions.map (fun v => v.id)).Nodup ∧
  ∀ v ∈ st.image_versions, v.id < st.next_version_id

instance (vs : List VersionRow) : Decidable (singleActiveL vs) := by
  unfold singleActiveL; infer_instance

instance (st : DBState) : Decidable (SingleActive st) := by
  unfold SingleActive; infer_instance

instance (st : DBState) : Decidable (WF st) := by
  unfold WF; exact instDecidableAnd

/-! ### List toolkit -/

theorem countP_split {α : Type} (p q : α → Bool) (l : List α) :
    l.countP p = l.countP (fun a => p a && q a) + l.countP (fun a => p a && !(q a)) := by
  induction l with
  | nil => rfl
  | cons a t ih =>
    simp only [List.countP_cons, ih]
    cases hp : p a <;> cases hq : q a <;> simp <;> omega

theorem countP_key_unique (p : VersionRow → Bool) :
    ∀ (l : List VersionRow) (v : VersionRow), (l.map (fun u => u.id)).Nodup → v ∈ l →
      l.countP (fun a => p a && (a.id == v.id)) = if p v then 1 else 0 := by
  intro l
  induction l with
  | nil => intro v _ hv; cases hv
  | cons a t ih =>
    intro v hnd hv
    rw [List.map_cons, List.nodup_cons] at hnd
    obtain ⟨hna, hndt⟩ := hnd
    rw [List.countP_cons]
    rcases List.mem_cons.mp hv with rfl | hvt
    · have ht : t.countP (fun x => p x && (x.id == v.id)) = 0 := by
        rw [List.countP_eq_zero]
        intro b hb
        have hne : b.id ≠ v.id := by
          intro he
          exact hna (he ▸ List.mem_map_of_mem (fun u => u.id) hb)
        simp [hne]
      rw [ht]
      simp
    · have hne : a.id ≠ v.id := by
        intro he
        exact hna (he ▸ List.mem_map_of_mem (fun u => u.id) hvt)
      rw [ih v hndt hvt]
      simp [hne]

theorem mem_key_unique :
    ∀ (l : List VersionRow), (l.map (fun u => u.id)).Nodup →
      ∀ {a b : VersionRow}, a ∈ l → b ∈ l → a.id = b.id → a = b := by
  intro l
  induction l with
  | nil => intro _ a b ha; cases ha
  | cons x t ih =>
    intro hnd a b ha hb hab
    rw [List.map_cons, List.nodup_cons] at hnd
    obtain ⟨hnx, hndt⟩ := hnd
    rcases List.mem_cons.mp ha with rfl | hat
    · rcases List.mem_cons.mp hb with rfl | hbt
      · rfl
      · exact absurd (hab ▸ List.mem_map_of_mem (fun u => u.id) hbt) hnx
    · rcases List.mem_cons.mp hb with rfl | hbt
      · exact absurd (hab ▸ List.mem_map_of_mem (fun u => u.id) hat) hnx
      · exact ih hndt hat hbt hab

theorem one_lt_length_of_mem_ne {α : Type} {l : List α} {a b : α}
    (ha : a ∈ l) (hb : b ∈ l) (hab : a ≠ b) : 1 < l.length := by
  match l with
  | [] => cases ha
  | [x] =>
    rw [List.mem_singleton] at ha hb
    exact absurd (ha.trans hb.symm) hab
  | x :: y :: t => simp only [List.length]; omega

theorem rowsAt_append {α : Type} (t₁ t₂ : List (Nat × α)) (k : Nat) :
    rowsAt (t₁ ++ t₂) k = rowsAt t₁ k ++ rowsAt t₂ k := by
  simp [rowsAt, List.filter_append]

theorem rowsAt_map_self {α : Type} (xs : List α) (k : Nat) :
    rowsAt (xs.map (fun x => (k, x))) k = xs := by
  induction xs with
  | nil => rfl
  | cons a t ih =>
    unfold rowsAt at ih ⊢
    rw [List.map_cons, List.filter_cons_of_pos (by simp), List.map_cons, ih]

theorem rowsAt_removeKey {α : Type} (tbl : List (Nat × α)) (k : Nat) :
    rowsAt (removeKey tbl k) k = [] := by
  have h : (removeKey tbl k).filter (fun r => r.1 == k) = [] := by
    rw [List.filter_eq_nil_iff]
    intro r hr
    have h2 := (List.mem_filter.mp hr).2
    simp only [bne_iff_ne, ne_eq] at h2
    simp [h2]
  simp [rowsAt, h]

theorem rowsAtI_append_map {α : Type} (tbl : List (Nat × α)) (xs : List α) (k : Nat)
    (s : Int) (h : Int.ofNat k ≠ s) :
    rowsAtI (tbl ++ xs.map (fun x => (k, x))) s = rowsAtI tbl s := by
  have h2 : (xs.map (fun x => (k, x))).filter (fun r => Int.ofNat r.1 == s) = [] := by
    rw [List.filter_eq_nil_iff]
    intro r hr
    rcases List.mem_map.mp hr with ⟨x, _, rfl⟩
    rw [beq_iff_eq]
    exact h
  unfold rowsAtI
  rw [List.filter_append, h2, List.append_nil]

theorem find?_filter_of_imp {α : Type} (l : List α) (p q : α → Bool)
    (h : ∀ a, p a = true → q a = true) :
    (l.filter q).find? p = l.find? p := by
  induction l with
  | nil => rfl
  | cons a t ih =>
    by_cases hq : q a = true
    · rw [List.filter_cons_of_pos hq]
      by_cases hp : p a = true
      · rw [List.find?_cons_of_pos _ hp, List.find?_cons_of_pos _ hp]
      · rw [List.find?_cons_of_neg _ hp, List.find?_cons_of_neg _ hp, ih]
    · have hp : ¬p a = true := fun hpa => hq (h a hpa)
      rw [List.filter_cons_of_neg hq, List.find?_cons_of_neg _ hp, ih]

theorem lookupRow_removeKey_append {α : Type} (tbl : List (Nat × α)) (k : Nat) (d : α) :
    lookupRow (removeKey tbl k ++ [(k, d)]) k = some d := by
  have h : (removeKey tbl k).find? (fun r => r.1 == k) = none := by
    rw [List.find?_eq_none]
    intro r hr
    have h2 := (List.mem_filter.mp hr).2
    simp only [bne_iff_ne, ne_eq] at h2
    simp [h2]
  simp [lookupRow, List.find?_append, h]

theorem lookupRowI_removeKey_append {α : Type} (tbl : List (Nat × α)) (k : Nat) (d : α)
    (s : Int) (h : s ≠ Int.ofNat k) :
    lookupRowI (removeKey tbl k ++ [(k, d)]) s = lookupRowI tbl s := by
  have h1 : ∀ r : Nat × α, (Int.ofNat r.1 == s) = true → (r.1 != k) = true := by
    intro r hr
    rw [beq_iff_eq] at hr
    rw [bne_iff_ne]
    intro he
    exact h (by rw [← hr, he])
  have h2 : ((k, d)).2 = d := rfl
  unfold lookupRowI removeKey
  rw [List.find?_append, find?_filter_of_imp _ _ _ h1]
  have h3 : List.find? (fun r => Int.ofNat r.1 == s) [(k, d)] = none := by
    rw [List.find?_eq_none]
    intro r hr
    rw [List.mem_singleton] at hr
    subst hr
    simp
    intro he
    exact absurd he.symm h
  rw [h3]
  cases List.find? (fun r => Int.ofNat r.1 == s) tbl <;> rfl

theorem removeKey_append_self {α : Type} (tbl : List (Nat × α)) (k : Nat) (d : α) :
    removeKey (removeKey tbl k ++ [(k, d)]) k = removeKey tbl k := by
  unfold removeKey
  rw [List.filter_append, List.filter_filter]
  have h1 : (fun (a : Nat × α) => a.1 != k && a.1 != k) = fun a => a.1 != k := by
    funext a
    rw [Bool.and_self]
  have h2 : List.filter (fun (r : Nat × α) => r.1 != k) [(k, d)] = [] := by
    simp
  rw [h1, h2, List.append_nil]

/-! ### Frame facts about the copy engine -/

theorem copy_version_data_image_versions (st : DBState) (s : Int) (t : Nat) :
    (copy_version_data st s t).image_versions = st.image_versions := by
  unfold copy_version_data
  cases findVersionI st.image_versions s <;> rfl

theorem copy_version_data_base_tables (st : DBState) (s : Int) (t : Nat) :
    (copy_version_data st s t).images = st.images ∧
    (copy_version_data st s t).phone_numbers = st.phone_numbers ∧
    (copy_version_data st s t).email_addresses = st.email_addresses ∧
    (copy_version_data st s t).postal_addresses = st.postal_addresses ∧
    (copy_version_data st s t).url_addresses = st.url_addresses ∧
    (copy_version_data st s t).social_profiles = st.social_profiles := by
  unfold copy_version_data
  cases findVersionI st.image_versions s <;> exact ⟨rfl, rfl, rfl, rfl, rfl, rfl⟩

/-! ### Pointwise facts about the row updaters -/

theorem deactOther_id (iid vid : Nat) (v : VersionRow) :
    (deactOther iid vid v).id = v.id := by
  unfold deactOther; split <;> rfl

theorem deactOther_image_id (iid vid : Nat) (v : VersionRow) :
    (deactOther iid vid v).image_id = v.image_id := by
  unfold deactOther; split <;> rfl

theorem activateRow_id (vid : Nat) (v : VersionRow) :
    (activateRow vid v).id = v.id := by
  unfold activateRow; split <;> rfl

theorem activateRow_image_id (vid : Nat) (v : VersionRow) :
    (activateRow vid v).image_id = v.image_id := by
  unfold activateRow; split <;> rfl

theorem applyMetaFields_id (u : UpdateData) (v : VersionRow) :
    (applyMetaFields u v).id = v.id := rfl

theorem applyMetaFields_image_id (u : UpdateData) (v : VersionRow) :
    (applyMetaFields u v).image_id = v.image_id := rfl

/-! ### Preservation of the single-active invariant -/

theorem countActive_insertActiveVersion (vs : List VersionRow) (iid vid : Nat)
    (tag : String) (notes : Option String) (now : Nat)
    (hfresh : ∀ v ∈ vs, v.id ≠ vid) (iid' : Nat) :
    countActive (insertActiveVersion vs iid vid tag notes now) iid' =
      if iid' = iid then 1 else countActive vs iid' := by
  unfold countActive insertActiveVersion
  rw [List.countP_map, List.countP_append]
  by_cases hii : iid' = iid
  · subst hii
    have h1 : vs.countP
        ((fun w => w.image_id == iid' && w.is_active) ∘ deactOther iid' vid) = 0 := by
      rw [List.countP_eq_zero]
      intro v hv
      by_cases himg : v.image_id = iid'
      · have hid : v.id ≠ vid := hfresh v hv
        simp [deactOther, himg, hid]
      · simp [deactOther, himg]
    have h2 : List.countP
        ((fun w => w.image_id == iid' && w.is_active) ∘ deactOther iid' vid)
        [newVersionRow iid' vid tag notes now] = 1 := by
      simp [deactOther, newVersionRow]
    rw [h1, h2]
    simp
  · have h1 : vs.countP
        ((fun w => w.image_id == iid' && w.is_active) ∘ deactOther iid vid) =
        vs.countP (fun w => w.image_id == iid' && w.is_active) := by
      apply List.countP_congr
      intro v _
      by_cases himg : v.image_id = iid
      · have hne2 : ¬(v.image_id == iid') = true := by
          rw [beq_iff_eq, himg]
          exact fun he => hii he.symm
        by_cases hid : v.id = vid
        · simp [deactOther, Function.comp, hid, hne2]
        · simp [deactOther, Function.comp, himg, hid, hne2]
          exact fun he => absurd he.symm hii
      · simp [deactOther, Function.comp, himg]
    have h2 : List.countP
        ((fun w => w.image_id == iid' && w.is_active) ∘ deactOther iid vid)
        [newVersionRow iid vid tag notes now] = 0 := by
      have hne2 : ¬((iid : Nat) == iid') = true := by
        rw [beq_iff_eq]
        exact fun he => hii he.symm
      simp [deactOther, newVersionRow, hne2]
    rw [h1, h2, if_neg hii]
    rfl

theorem singleActiveL_insertActiveVersion (vs : List VersionRow) (iid vid : Nat)
    (tag : String) (notes : Option String) (now : Nat)
    (hfresh : ∀ v ∈ vs, v.id ≠ vid) (hinv : singleActiveL vs) :
    singleActiveL (insertActiveVersion vs iid vid tag notes now) := by
  intro u hu
  rw [countActive_insertActiveVersion vs iid vid tag notes now hfresh]
  by_cases hu2 : u.image_id = iid
  · rw [if_pos hu2]
  · rw [if_neg hu2]
    unfold insertActiveVersion at hu
    rcases List.mem_map.mp hu with ⟨x, hx, rfl⟩
    rcases List.mem_append.mp hx with hxv | hxn
    · rw [deactOther_image_id]
      exact hinv x hxv
    · rw [List.mem_singleton] at hxn
      subst hxn
      rw [deactOther_image_id] at hu2
      exact absurd rfl hu2

theorem singleActiveL_map_keep (vs : List VersionRow) (f : VersionRow → VersionRow)
    (himg : ∀ u, (f u).image_id = u.image_id)
    (hact : ∀ u ∈ vs, (f u).is_active = u.is_active)
    (hinv : singleActiveL vs) :
    singleActiveL (vs.map f) := by
  intro u hu
  rcases List.mem_map.mp hu with ⟨x, hx, rfl⟩
  unfold countActive
  rw [List.countP_map]
  have hc : vs.countP ((fun w => w.image_id == (f x).image_id && w.is_active) ∘ f) =
      vs.countP (fun w => w.image_id == (f x).image_id && w.is_active) := by
    apply List.countP_congr
    intro v hv
    simp only [Function.comp]
    rw [himg v, hact v hv]
  rw [hc, himg x]
  exact hinv x hx

theorem deactOther_pos (iid vid : Nat) (v : VersionRow)
    (h : (v.image_id == iid && v.id != vid) = true) :
    deactOther iid vid v = { v with is_active := false } := by
  unfold deactOther
  rw [if_pos h]

theorem deactOther_neg (iid vid : Nat) (v : VersionRow)
    (h : ¬(v.image_id == iid && v.id != vid) = true) :
    deactOther iid vid v = v := by
  unfold deactOther
  rw [if_neg h]

theorem activateRow_pos (vid : Nat) (v : VersionRow) (h : (v.id == vid) = true) :
    activateRow vid v = { v with is_active := true } := by
  unfold activateRow
  rw [if_pos h]

theorem activateRow_neg (vid : Nat) (v : VersionRow) (h : ¬(v.id == vid) = true) :
    activateRow vid v = v := by
  unfold activateRow
  rw [if_neg h]

theorem singleActiveL_activate_core (vs : List VersionRow) (vid : Nat)
    (f : VersionRow → VersionRow)
    (hid : ∀ u, (f u).id = u.id)
    (himg : ∀ u, (f u).image_id = u.image_id)
    (hactf : ∀ u, u.id = vid → (f u).is_active = true)
    (hkeep : ∀ u, u.id ≠ vid → (f u).is_active = u.is_active)
    (hnd : (vs.map (fun u => u.id)).Nodup)
    (hinv : singleActiveL vs)
    (v0 : VersionRow) (hv0 : (vs.map f).find? (fun u => u.id == vid) = some v0) :
    singleActiveL ((vs.map f).map (deactOther v0.image_id vid)) := by
  have hids : (vs.map f).map (fun u => u.id) = vs.map (fun u => u.id) := by
    rw [List.map_map]
    exact List.map_congr_left (fun a _ => hid a)
  have hndw : ((vs.map f).map (fun u => u.id)).Nodup := by rw [hids]; exact hnd
  have hv0id : v0.id = vid := by
    have := List.find?_some hv0
    rwa [beq_iff_eq] at this
  have hv0m : v0 ∈ vs.map f := List.mem_of_find?_eq_some hv0
  have hv0act : v0.is_active = true := by
    rcases List.mem_map.mp hv0m with ⟨x0, hx0, hfx0⟩
    have hx0id : x0.id = vid := by rw [← hid x0, hfx0, hv0id]
    rw [← hfx0]
    exact hactf x0 hx0id
  intro u hu
  rcases List.mem_map.mp hu with ⟨y, hy, rfl⟩
  rw [deactOther_image_id]
  unfold countActive
  rw [List.countP_map]
  by_cases hii : y.image_id = v0.image_id
  · rw [hii]
    have hcongr : (vs.map f).countP
        ((fun w => w.image_id == v0.image_id && w.is_active) ∘ deactOther v0.image_id vid) =
        (vs.map f).countP (fun a => (a.image_id == v0.image_id) && (a.id == v0.id)) := by
      apply List.countP_congr
      intro a ha
      simp only [Function.comp]
      by_cases haid : a.id = vid
      · have ha_eq : a = v0 := mem_key_unique (vs.map f) hndw ha hv0m (haid.trans hv0id.symm)
        rw [ha_eq]
        have hcond : ¬(v0.image_id == v0.image_id && v0.id != vid) = true := by
          simp [hv0id]
        rw [deactOther_neg _ _ _ hcond]
        simp [hv0act]
      · have hc2 : (a.id == v0.id) = false := by
          rw [beq_eq_false_iff_ne]
          intro he
          exact haid (he.trans hv0id)
        by_cases haimg : a.image_id = v0.image_id
        · have hcond : (a.image_id == v0.image_id && a.id != vid) = true := by
            simp [haimg, haid]
          rw [deactOther_pos _ _ _ hcond]
          simp [hc2]
        · have hcond : ¬(a.image_id == v0.image_id && a.id != vid) = true := by
            simp [haimg]
          rw [deactOther_neg _ _ _ hcond]
          have hc1 : (a.image_id == v0.image_id) = false := by
            rw [beq_eq_false_iff_ne]; exact haimg
          simp [hc1, hc2]
    rw [hcongr, countP_key_unique (fun a => a.image_id == v0.image_id) (vs.map f) v0 hndw hv0m]
    simp
  · have hcongr : (vs.map f).countP
        ((fun w => w.image_id == y.image_id && w.is_active) ∘ deactOther v0.image_id vid) =
        (vs.map f).countP (fun w => w.image_id == y.image_id && w.is_active) := by
      apply List.countP_congr
      intro a _
      simp only [Function.comp]
      by_cases hd : (a.image_id == v0.image_id && a.id != vid) = true
      · rw [deactOther_pos _ _ _ hd]
        have hdd := hd
        rw [Bool.and_eq_true] at hdd
        have haimg : a.image_id = v0.image_id := by
          have h1 := hdd.1
          rwa [beq_iff_eq] at h1
        have hc : (a.image_id == y.image_id) = false := by
          rw [beq_eq_false_iff_ne, haimg]
          exact fun he => hii he.symm
        simp [hc]
      · rw [deactOther_neg _ _ _ hd]
    rw [hcongr]
    have hcongr2 : (vs.map f).countP (fun w => w.image_id == y.image_id && w.is_active) =
        vs.countP (fun w => w.image_id == y.image_id && w.is_active) := by
      rw [List.countP_map]
      apply List.countP_congr
      intro x hx
      simp only [Function.comp]
      by_cases hxid : x.id = vid
      · have hfx : f x = v0 :=
          mem_key_unique (vs.map f) hndw (List.mem_map_of_mem f hx) hv0m
            ((hid x).trans (hxid.trans hv0id.symm))
        have hximg : x.image_id = v0.image_id := by rw [← himg x, hfx]
        have hc1 : ((f x).image_id == y.image_id) = false := by
          rw [beq_eq_false_iff_ne, himg x, hximg]
          exact fun he => hii he.symm
        have hc2 : (x.image_id == y.image_id) = false := by
          rw [beq_eq_false_iff_ne, hximg]
          exact fun he => hii he.symm
        simp [hc1, hc2]
      · rw [himg x, hkeep x hxid]
    rw [hcongr2]
    rcases List.mem_map.mp hy with ⟨x, hx, rfl⟩
    rw [himg x]
    exact hinv x hx

theorem countP_filter_out (p : VersionRow → Bool) (vs : List VersionRow) (vid : Nat)
    (v : VersionRow) (hnd : (vs.map (fun u => u.id)).Nodup) (hv : v ∈ vs) (hvid : v.id = vid) :
    (vs.filter (fun u => u.id != vid)).countP p = vs.countP p - (if p v then 1 else 0) := by
  rw [List.countP_filter]
  have hsplit := countP_split p (fun u : VersionRow => u.id == v.id) vs
  have hkey := countP_key_unique p vs v hnd hv
  have hcongr : vs.countP (fun a => p a && (a.id != vid)) =
      vs.countP (fun a => p a && !(a.id == v.id)) := by
    apply List.countP_congr
    intro a _
    rw [hvid]
    rfl
  rw [hcongr]
  omega

theorem singleActiveL_delete_inactive (vs : List VersionRow) (vid : Nat) (v : VersionRow)
    (hnd : (vs.map (fun u => u.id)).Nodup)
    (hfind : vs.find? (fun u => u.id == vid) = some v)
    (hinact : v.is_active = false)
    (hinv : singleActiveL vs) :
    singleActiveL (vs.filter (fun u => u.id != vid)) := by
  have hvm := List.mem_of_find?_eq_some hfind
  have hvid : v.id = vid := by
    have := List.find?_some hfind
    rwa [beq_iff_eq] at this
  intro u hu
  have hu' : u ∈ vs := (List.mem_filter.mp hu).1
  unfold countActive
  rw [countP_filter_out _ vs vid v hnd hvm hvid, hinact]
  simp only [Bool.and_false]
  simpa using hinv u hu'

theorem singleActiveL_delete_active_promote (vs : List VersionRow) (vid : Nat) (v : VersionRow)
    (hnd : (vs.map (fun u => u.id)).Nodup)
    (hfind : vs.find? (fun u => u.id == vid) = some v)
    (hact : v.is_active = true)
    (hcount : 1 < vs.countP (fun u => u.image_id == v.image_id))
    (hinv : singleActiveL vs) :
    singleActiveL (setNewActiveL (vs.filter (fun u => u.id != vid)) v.image_id) := by
  have hvm := List.mem_of_find?_eq_some hfind
  have hvid : v.id = vid := by
    have := List.find?_some hfind
    rwa [beq_iff_eq] at this
  have hnd' : ((vs.filter (fun u => u.id != vid)).map (fun u => u.id)).Nodup :=
    List.Nodup.sublist (List.Sublist.map _ (List.filter_sublist vs)) hnd
  have hzero : countActive (vs.filter (fun u => u.id != vid)) v.image_id = 0 := by
    unfold countActive
    rw [countP_filter_out _ vs vid v hnd hvm hvid]
    have hcond : (v.image_id == v.image_id && v.is_active) = true := by simp [hact]
    rw [hcond]
    have h2 := hinv v hvm
    unfold countActive at h2
    simp only [if_pos]
    omega
  have hrem : 0 < (vs.filter (fun u => u.id != vid)).countP (fun u => u.image_id == v.image_id) := by
    rw [countP_filter_out (fun u : VersionRow => u.image_id == v.image_id) vs vid v hnd hvm hvid]
    have hcond : ((v.image_id == v.image_id) = true) := by simp
    rw [hcond]
    simp only [if_pos]
    omega
  unfold setNewActiveL
  cases harg : ((vs.filter (fun u => u.id != vid)).filter
      (fun u => u.image_id == v.image_id)).argmax (fun u => u.created_at) with
  | none =>
    exfalso
    rw [List.argmax_eq_none] at harg
    have hz : (vs.filter (fun u => u.id != vid)).countP (fun u => u.image_id == v.image_id) = 0 := by
      rw [List.countP_eq_length_filter, harg]
      rfl
    omega
  | some w =>
    have hwmem : w ∈ (vs.filter (fun u => u.id != vid)).filter (fun u => u.image_id == v.image_id) :=
      List.argmax_mem (Option.mem_def.mpr harg)
    have hw1 : w ∈ vs.filter (fun u => u.id != vid) := (List.mem_filter.mp hwmem).1
    have hw2 : w.image_id = v.image_id := by
      have := (List.mem_filter.mp hwmem).2
      rwa [beq_iff_eq] at this
    intro u hu
    rcases List.mem_map.mp hu with ⟨y, hy, rfl⟩
    rw [activateRow_image_id]
    unfold countActive
    rw [List.countP_map]
    by_cases hii : y.image_id = v.image_id
    · rw [hii]
      rw [countP_split ((fun x => x.image_id == v.image_id && x.is_active) ∘ activateRow w.id)
        (fun x => x.id == w.id) (vs.filter (fun u => u.id != vid))]
      have hA : (vs.filter (fun u => u.id != vid)).countP
          (fun a => ((fun x => x.image_id == v.image_id && x.is_active) ∘ activateRow w.id) a &&
            (a.id == w.id)) = 1 := by
        have hcongr : (vs.filter (fun u => u.id != vid)).countP
            (fun a => ((fun x => x.image_id == v.image_id && x.is_active) ∘ activateRow w.id) a &&
              (a.id == w.id)) =
            (vs.filter (fun u => u.id != vid)).countP
              (fun a => (a.image_id == v.image_id) && (a.id == w.id)) := by
          apply List.countP_congr
          intro a _
          simp only [Function.comp]
          by_cases haid : (a.id == w.id) = true
          · rw [activateRow_pos _ _ haid]
            simp [haid]
          · rw [activateRow_neg _ _ haid]
            have haid2 : (a.id == w.id) = false := by
              cases hb : (a.id == w.id)
              · rfl
              · exact absurd hb haid
            simp [haid2]
        rw [hcongr, countP_key_unique (fun a => a.image_id == v.image_id)
          (vs.filter (fun u => u.id != vid)) w hnd' hw1]
        simp [hw2]
      have hB : (vs.filter (fun u => u.id != vid)).countP
          (fun a => ((fun x => x.image_id == v.image_id && x.is_active) ∘ activateRow w.id) a &&
            !(a.id == w.id)) = 0 := by
        have hle := List.countP_mono_left (l := vs.filter (fun u => u.id != vid))
          (p := fun a => ((fun x => x.image_id == v.image_id && x.is_active) ∘ activateRow w.id) a &&
            !(a.id == w.id))
          (q := fun x => x.image_id == v.image_id && x.is_active) ?himp
        · unfold countActive at hzero
          omega
        · intro a _ hpa
          rw [Bool.and_eq_true] at hpa
          obtain ⟨hp1, hp2⟩ := hpa
          have haid : ¬(a.id == w.id) = true := by
            intro hb
            rw [hb] at hp2
            simp at hp2
          rw [Function.comp, activateRow_neg _ _ haid] at hp1
          exact hp1
      rw [hA, hB]
    · have hcongr : (vs.filter (fun u => u.id != vid)).countP
          ((fun x => x.image_id == y.image_id && x.is_active) ∘ activateRow w.id) =
          (vs.filter (fun u => u.id != vid)).countP
            (fun x => x.image_id == y.image_id && x.is_active) := by
        apply List.countP_congr
        intro a ha
        simp only [Function.comp]
        by_cases haid : (a.id == w.id) = true
        · have ha_eq : a = w := by
            apply mem_key_unique (vs.filter (fun u => u.id != vid)) hnd' ha hw1
            rwa [beq_iff_eq] at haid
          rw [ha_eq, activateRow_pos _ _ (by simp)]
          have hc : (w.image_id == y.image_id) = false := by
            rw [beq_eq_false_iff_ne, hw2]
            exact fun he => hii he.symm
          simp [hc]
        · rw [activateRow_neg _ _ haid]
      rw [hcongr]
      rw [countP_filter_out (fun x : VersionRow => x.image_id == y.image_id && x.is_active)
        vs vid v hnd hvm hvid]
      have hc : (v.image_id == y.image_id && v.is_active) = false := by
        have hc1 : (v.image_id == y.image_id) = false := by
          rw [beq_eq_false_iff_ne]
          exact fun he => hii he.symm
        rw [hc1, Bool.false_and]
      rw [hc]
      have hy' : y ∈ vs := (List.mem_filter.mp hy).1
      have := hinv y hy'
      unfold countActive at this
      simp only [Bool.false_eq_true, if_false]
      omega

theorem singleActiveL_updMetaGroup (upd : UpdateData) (vs : List VersionRow) (vid : Nat)
    (hnd : (vs.map (fun u => u.id)).Nodup)
    (hinv : singleActiveL vs)
    (hna : UpdateData.is_active upd ≠ some false) :
    singleActiveL (updMetaGroup upd vs vid) := by
  have hid : ∀ u : VersionRow,
      ((fun v => if v.id == vid then applyMetaFields upd v else v) u).id = u.id := by
    intro u
    by_cases hc : (u.id == vid) = true <;> simp [hc, applyMetaFields]
  have himg : ∀ u : VersionRow,
      ((fun v => if v.id == vid then applyMetaFields upd v else v) u).image_id = u.image_id := by
    intro u
    by_cases hc : (u.id == vid) = true <;> simp [hc, applyMetaFields]
  have hcases : UpdateData.is_active upd = none ∨ UpdateData.is_active upd = some true := by
    cases h : UpdateData.is_active upd with
    | none => exact Or.inl rfl
    | some b =>
      cases b
      · exact absurd h hna
      · exact Or.inr rfl
  unfold updMetaGroup updMetaApplied
  by_cases hm : hasMetaFields upd = true
  swap
  · rw [if_neg hm]
    exact hinv
  rw [if_pos hm]
  rcases hcases with hia | hia
  · have hbeq : ¬(UpdateData.is_active upd == some true) = true := by
      rw [hia]
      simp
    rw [if_neg hbeq]
    apply singleActiveL_map_keep _ _ himg _ hinv
    intro u _
    by_cases hc : (u.id == vid) = true <;> simp [hc, applyMetaFields, hia]
  · have hbeq : (UpdateData.is_active upd == some true) = true := by
      rw [hia]
      rfl
    rw [if_pos hbeq]
    have hactf : ∀ u : VersionRow, u.id = vid →
        ((fun v => if v.id == vid then applyMetaFields upd v else v) u).is_active = true := by
      intro u hu
      have hc : (u.id == vid) = true := by rw [beq_iff_eq]; exact hu
      simp [hc, applyMetaFields, hia]
    have hkeep : ∀ u : VersionRow, u.id ≠ vid →
        ((fun v => if v.id == vid then applyMetaFields upd v else v) u).is_active = u.is_active := by
      intro u hu
      have hc : ¬(u.id == vid) = true := by
        rw [beq_iff_eq]
        exact hu
      simp [hc]
    cases hf : (vs.map (fun v => if v.id == vid then applyMetaFields upd v else v)).find?
        (fun v => v.id == vid) with
    | some v0 =>
      exact singleActiveL_activate_core vs vid _ hid himg hactf hkeep hnd hinv v0 hf
    | none =>
      apply singleActiveL_map_keep _ _ himg _ hinv
      intro u hu
      rw [List.find?_eq_none] at hf
      have hne : u.id ≠ vid := by
        intro he
        have hmem : (fun v => if v.id == vid then applyMetaFields upd v else v) u ∈
            vs.map (fun v => if v.id == vid then applyMetaFields upd v else v) :=
          List.mem_map_of_mem _ hu
        have h2 := hf _ hmem
        rw [hid u] at h2
        rw [beq_iff_eq] at h2
        exact h2 he
      exact hkeep u hne

/-! ### Shape of each operation's result -/

theorem create_version_ok_inv {st : DBState} {iid : Nat} {tag : String}
    {src : Option Nat} {notes : Option String} {blank : Bool} {now : Nat}
    {vid : Nat} {st2 : DBState}
    (h : create_version st iid tag src notes blank now = Except.ok (vid, st2)) :
    vid = st.next_version_id ∧
    st2.image_versions = insertActiveVersion st.image_versions iid st.next_version_id tag notes now := by
  unfold create_version at h
  cases he : st.images.any (fun im => im.id == iid) with
  | false =>
    rw [he] at h
    simp at h
  | true =>
    rw [he] at h
    simp only [Bool.not_true, Bool.false_eq_true, if_false] at h
    cases blank with
    | true =>
      simp only [if_true] at h
      rw [Except.ok.injEq, Prod.mk.injEq] at h
      obtain ⟨h1, h2⟩ := h
      exact ⟨h1.symm, by rw [← h2]⟩
    | false =>
      rw [if_neg Bool.false_ne_true] at h
      cases src with
      | none =>
        rw [Except.ok.injEq, Prod.mk.injEq] at h
        obtain ⟨h1, h2⟩ := h
        refine ⟨h1.symm, ?_⟩
        rw [← h2, copy_version_data_image_versions]
      | some s =>
        have h2 : (if (!(insertActiveVersion st.image_versions iid st.next_version_id tag notes now).any
              (fun v => v.id == s)) = true then
            (Except.error (CreateError.sourceNotFound s) : Except CreateError (Nat × DBState))
          else Except.ok (st.next_version_id, copy_version_data
            { st with
              image_versions := insertActiveVersion st.image_versions iid st.next_version_id tag notes now
              next_version_id := st.next_version_id + 1 } (Int.ofNat s) st.next_version_id)) =
            Except.ok (vid, st2) := h
        cases hs : (insertActiveVersion st.image_versions iid st.next_version_id tag notes now).any
            (fun v => v.id == s) with
        | false =>
          rw [hs] at h2
          simp at h2
        | true =>
          rw [hs] at h2
          simp only [Bool.not_true, Bool.false_eq_true, if_false] at h2
          rw [Except.ok.injEq, Prod.mk.injEq] at h2
          obtain ⟨h3, h4⟩ := h2
          refine ⟨h3.symm, ?_⟩
          rw [← h4, copy_version_data_image_versions]

theorem update_version_true_inv (st : DBState) (vid : Nat) (upd : UpdateData)
    (h : (update_version st vid upd).1 = true) :
    (update_version st vid upd).2.image_versions = updMetaGroup upd st.image_versions vid := by
  unfold update_version at h ⊢
  cases he : st.image_versions.any (fun v => v.id == vid) with
  | false =>
    rw [he] at h
    simp at h
  | true =>
    simp

theorem find?_map_activateRow (vs : List VersionRow) (vid : Nat) :
    (vs.map (activateRow vid)).find? (fun u => u.id == vid) =
      Option.map (activateRow vid) (vs.find? (fun u => u.id == vid)) := by
  have hp : ((fun u : VersionRow => u.id == vid) ∘ activateRow vid) =
      (fun u : VersionRow => u.id == vid) := by
    funext u
    simp [Function.comp, activateRow_id]
  rw [List.find?_map, hp]

theorem set_active_version_true_inv (st : DBState) (vid : Nat) {v : VersionRow}
    (hfind : st.image_versions.find? (fun u => u.id == vid) = some v) :
    set_active_version st vid =
      (true, { st with image_versions :=
        (st.image_versions.map (activateRow vid)).map (deactOther v.image_id vid) }) := by
  unfold set_active_version
  rw [hfind]

theorem delete_version_success_inv (st : DBState) (vid : Nat) {v : VersionRow}
    (hfind : st.image_versions.find? (fun u => u.id == vid) = some v)
    (hcount : 1 < st.image_versions.countP (fun u => u.image_id == v.image_id)) :
    delete_version st vid =
      (OperationResult.success,
        if v.is_active then set_new_active_version (delete_version_data st vid) v.image_id
        else delete_version_data st vid) := by
  have hred : delete_version st vid =
      (if st.image_versions.countP (fun u => u.image_id == v.image_id) ≤ 1 then
        (OperationResult.opError "only_version"
          ("Cannot delete the only version for image " ++ toString v.image_id), st)
      else (OperationResult.success,
        if v.is_active then set_new_active_version (delete_version_data st vid) v.image_id
        else delete_version_data st vid)) := by
    unfold delete_version
    rw [hfind]
  rw [hred, if_neg (by omega)]

/-! ### Claim C1 -/

/-- C1 (amended): from a well-formed store satisfying the single-active
invariant, every successful `create_version`, `set_active_version` and
`delete_version` preserves the invariant, and so does every successful
`update_version` whose supplied `is_active` is not `false`: afterwards
every entity with at least one version has exactly one version with
`is_active = true`.  (An `update_version` that supplies `is_active =
false` can break the invariant — see the counterexample.) -/
theorem single_active_preserved (st : DBState) (hwf : WF st) (hinv : SingleActive st) :
    (∀ iid tag src notes blank now vid st2,
        create_version st iid tag src notes blank now = Except.ok (vid, st2) →
        SingleActive st2) ∧
    (∀ vid upd, UpdateData.is_active upd ≠ some false →
        (update_version st vid upd).1 = true →
        SingleActive (update_version st vid upd).2) ∧
    (∀ vid, (set_active_version st vid).1 = true →
        SingleActive (set_active_version st vid).2) ∧
    (∀ vid, (delete_version st vid).1 = OperationResult.success →
        SingleActive (delete_version st vid).2) := by
  obtain ⟨hnd, hlt⟩ := hwf
  refine ⟨?_, ?_, ?_, ?_⟩
  · intro iid tag src notes blank now vid st2 h
    obtain ⟨_, h2⟩ := create_version_ok_inv h
    unfold SingleActive
    rw [h2]
    exact singleActiveL_insertActiveVersion _ _ _ _ _ _
      (fun v hv => Nat.ne_of_lt (hlt v hv)) hinv
  · intro vid upd hna h
    unfold SingleActive
    rw [update_version_true_inv st vid upd h]
    exact singleActiveL_updMetaGroup upd st.image_versions vid hnd hinv hna
  · intro vid h
    cases hf : st.image_versions.find? (fun u => u.id == vid) with
    | none =>
      unfold set_active_version at h
      rw [hf] at h
      simp at h
    | some v =>
      rw [set_active_version_true_inv st vid hf]
      unfold SingleActive
      have hv0 : (st.image_versions.map (activateRow vid)).find? (fun u => u.id == vid) =
          some (activateRow vid v) := by
        rw [find?_map_activateRow, hf]
        rfl
      have hcore := singleActiveL_activate_core st.image_versions vid (activateRow vid)
        (activateRow_id vid) (activateRow_image_id vid)
        (fun u hu => by
          have hc : (u.id == vid) = true := by rw [beq_iff_eq]; exact hu
          rw [activateRow_pos _ _ hc])
        (fun u hu => by
          have hc : ¬(u.id == vid) = true := by rw [beq_iff_eq]; exact hu
          rw [activateRow_neg _ _ hc])
        hnd hinv (activateRow vid v) hv0
      rw [activateRow_image_id] at hcore
      exact hcore
  · intro vid h
    cases hf : st.image_versions.find? (fun u => u.id == vid) with
    | none =>
      unfold delete_version at h
      rw [hf] at h
      simp at h
    | some v =>
      by_cases hc : st.image_versions.countP (fun u => u.image_id == v.image_id) ≤ 1
      · exfalso
        unfold delete_version at h
        rw [hf] at h
        have h2 : ((if st.image_versions.countP (fun u => u.image_id == v.image_id) ≤ 1 then
            (OperationResult.opError "only_version"
              ("Cannot delete the only version for image " ++ toString v.image_id), st)
          else (OperationResult.success,
            if v.is_active then set_new_active_version (delete_version_data st vid) v.image_id
            else delete_version_data st vid)).1 = OperationResult.success) := h
        rw [if_pos hc] at h2
        simp at h2
      · rw [delete_version_success_inv st vid hf (by omega)]
        unfold SingleActive
        cases ha : v.is_active with
        | false =>
          rw [if_neg Bool.false_ne_true]
          show singleActiveL (st.image_versions.filter (fun u => u.id != vid))
          exact singleActiveL_delete_inactive st.image_versions vid v hnd hf ha hinv
        | true =>
          rw [if_pos rfl]
          show singleActiveL (setNewActiveL (st.image_versions.filter (fun u => u.id != vid)) v.image_id)
          exact singleActiveL_delete_active_promote st.image_versions vid v hnd hf ha (by omega) hinv

/-! ### Example stores -/

/-- A base image row used by the example stores. -/
def exampleImage : ImageRow :=
  { id := 1, filename := "card.jpg", file_path := "card.jpg", hash := "h1",
    date_added := 0, source := "local", flat := {} }

/-- The initial "original" version row of the example image. -/
def exampleVersion : VersionRow :=
  { id := 1, image_id := 1, tag := "original", created_at := 0,
    notes := none, is_active := true }

/-- One image owning one active version. -/
def exampleStore : DBState :=
  { images := [exampleImage]
    image_versions := [exampleVersion]
    next_image_id := 2
    next_version_id := 2 }

/-- C1 counterexample: on a well-formed store satisfying the invariant,
`update_version` with `is_active = false` on the entity's active version
succeeds (returns `True`) yet leaves the entity with one version and zero
active versions — the claimed invariant does not hold after this
`update_version` call whose fields include the `is_active` key. -/
theorem single_active_broken_by_update_false :
    WF exampleStore ∧ SingleActive exampleStore ∧
    (update_version exampleStore 1 { is_active := some false }).1 = true ∧
    ¬ SingleActive (update_version exampleStore 1 { is_active := some false }).2 :=
  ⟨by decide, by decide, by decide, by decide⟩

/-- C1 witness: the preservation theorem applied to a concrete store and a
concrete `update_version` call. -/
theorem single_active_preserved_witness :
    SingleActive (update_version exampleStore 1 { tag := some "verified" }).2 :=
  (single_active_preserved exampleStore (by decide) (by decide)).2.1 1
    { tag := some "verified" } (by decide) (by decide)

/-! ### Claim C2 -/

/-- Example store whose base image owns a phone number — data the copy
engine's base-entity fallback would copy. -/
def exampleStorePhone : DBState :=
  { images := [exampleImage]
    phone_numbers := [(1, "+1-555-0100")]
    image_versions := [exampleVersion]
    next_image_id := 2
    next_version_id := 2 }

/-- C2 (code evidence, closed): on a store whose base image has a phone
number, `copy_version_data` with the sentinel `-1` source — exactly what
`create_version`'s no-source path passes — returns the store unchanged,
and the whole `create_version(image_id=1, tag="extracted")` call without a
source yields version 2 with no `version_data` row and no phone rows,
even though the base entity holds `+1-555-0100` to fall back to: the
early return on an unresolvable source skips the base-entity copy
entirely. -/
theorem create_version_no_source_copies_nothing :
    copy_version_data exampleStorePhone (-1) 2 = exampleStorePhone ∧
    (create_version exampleStorePhone 1 "extracted" none none false 5).toOption.map
      (fun r => (lookupRow r.2.version_data r.1,
                 rowsAt r.2.version_phone_numbers r.1,
                 rowsAt r.2.phone_numbers 1)) =
      some (none, [], ["+1-555-0100"]) :=
  ⟨by decide, by decide⟩

/-! ### Claims C3 and C4: the copy engine on an existing source -/

theorem copy_version_data_found (st : DBState) (src : Int) (tgt : Nat) (sv : VersionRow)
    (hs : findVersionI st.image_versions src = some sv) :
    copy_version_data st src tgt = { st with
      version_data :=
        match lookupRowI st.version_data src with
        | some d => removeKey st.version_data tgt ++ [(tgt, d)]
        | none =>
          match st.images.find? (fun im => im.id == sv.image_id) with
          | some im => removeKey st.version_data tgt ++ [(tgt, im.flat)]
          | none => st.version_data
      version_phone_numbers := st.version_phone_numbers ++
        (copiedGroup st.version_phone_numbers st.phone_numbers src sv.image_id).map
          (fun x => (tgt, x))
      version_email_addresses := st.version_email_addresses ++
        (copiedGroup st.version_email_addresses st.email_addresses src sv.image_id).map
          (fun x => (tgt, x))
      version_postal_addresses := st.version_postal_addresses ++
        (copiedGroup st.version_postal_addresses st.postal_addresses src sv.image_id).map
          (fun x => (tgt, x))
      version_url_addresses := st.version_url_addresses ++
        (copiedGroup st.version_url_addresses st.url_addresses src sv.image_id).map
          (fun x => (tgt, x))
      version_social_profiles := st.version_social_profiles ++
        (copiedGroup st.version_social_profiles st.social_profiles src sv.image_id).map
          (fun x => (tgt, x)) } := by
  unfold copy_version_data
  rw [hs]

theorem copiedGroup_eq_if {α : Type} [DecidableEq α] (vtbl btbl : List (Nat × α)) (src : Int) (iid : Nat) :
    copiedGroup vtbl btbl src iid =
      (if rowsAtI vtbl src = [] then rowsAt btbl iid else rowsAtI vtbl src) := by
  unfold copiedGroup
  by_cases h : rowsAtI vtbl src = []
  · rw [if_pos h]
    have hb : (rowsAtI vtbl src).isEmpty = true := List.isEmpty_iff.mpr h
    rw [hb, if_pos rfl]
  · rw [if_neg h]
    have hb : (rowsAtI vtbl src).isEmpty = false := List.isEmpty_eq_false.mpr h
    rw [hb, if_neg Bool.false_ne_true]

theorem rowsAt_append_copied {α : Type} [DecidableEq α] (tbl btbl : List (Nat × α)) (src : Int) (iid tgt : Nat) :
    rowsAt (tbl ++ (copiedGroup tbl btbl src iid).map (fun x => (tgt, x))) tgt =
      rowsAt tbl tgt ++ (if rowsAtI tbl src = [] then rowsAt btbl iid else rowsAtI tbl src) := by
  rw [rowsAt_append, rowsAt_map_self, copiedGroup_eq_if]

/-- C4: with an existing source version, `copy_version_data` resolves the
base-entity fallback independently per data group.  The target's flat
`version_data` row comes from the source's row when that row exists and
otherwise from the owning base image's columns; and each of the five
child collections appended onto the target is the source version's rows
when the source has any for that group, otherwise the owning base
entity's rows for that group — so a source with emails but no phones
yields the source's emails together with the base entity's phones. -/
theorem copy_per_group_fallback (st : DBState) (src : Int) (tgt : Nat) (sv : VersionRow)
    (hs : findVersionI st.image_versions src = some sv) :
    (∀ d, lookupRowI st.version_data src = some d →
      lookupRow (copy_version_data st src tgt).version_data tgt = some d) ∧
    (∀ im, lookupRowI st.version_data src = none →
      st.images.find? (fun x => x.id == sv.image_id) = some im →
      lookupRow (copy_version_data st src tgt).version_data tgt = some ( ImageRow.flat im)) ∧
    rowsAt (copy_version_data st src tgt).version_phone_numbers tgt =
      rowsAt st.version_phone_numbers tgt ++
        (if rowsAtI st.version_phone_numbers src = []
         then rowsAt st.phone_numbers sv.image_id
         else rowsAtI st.version_phone_numbers src) ∧
    rowsAt (copy_version_data st src tgt).version_email_addresses tgt =
      rowsAt st.version_email_addresses tgt ++
        (if rowsAtI st.version_email_addresses src = []
         then rowsAt st.email_addresses sv.image_id
         else rowsAtI st.version_email_addresses src) ∧
    rowsAt (copy_version_data st src tgt).version_postal_addresses tgt =
      rowsAt st.version_postal_addresses tgt ++
        (if rowsAtI st.version_postal_addresses src = []
         then rowsAt st.postal_addresses sv.image_id
         else rowsAtI st.version_postal_addresses src) ∧
    rowsAt (copy_version_data st src tgt).version_url_addresses tgt =
      rowsAt st.version_url_addresses tgt ++
        (if rowsAtI st.version_url_addresses src = []
         then rowsAt st.url_addresses sv.image_id
         else rowsAtI st.version_url_addresses src) ∧
    rowsAt (copy_version_data st src tgt).version_social_profiles tgt =
      rowsAt st.version_social_profiles tgt ++
        (if rowsAtI st.version_social_profiles src = []
         then rowsAt st.social_profiles sv.image_id
         else rowsAtI st.version_social_profiles src) := by
  rw [copy_version_data_found st src tgt sv hs]
  refine ⟨?_, ?_, ?_, ?_, ?_, ?_, ?_⟩
  · intro d hd
    rw [hd]
    exact lookupRow_removeKey_append st.version_data tgt d
  · intro im h1 h2
    rw [h1, h2]
    exact lookupRow_removeKey_append st.version_data tgt ( ImageRow.flat im)
  · exact rowsAt_append_copied st.version_phone_numbers st.phone_numbers src sv.image_id tgt
  · exact rowsAt_append_copied st.version_email_addresses st.email_addresses src sv.image_id tgt
  · exact rowsAt_append_copied st.version_postal_addresses st.postal_addresses src sv.image_id tgt
  · exact rowsAt_append_copied st.version_url_addresses st.url_addresses src sv.image_id tgt
  · exact rowsAt_append_copied st.version_social_profiles st.social_profiles src sv.image_id tgt

/-- C3 (amended): with an existing source version distinct from the
target, invoking `copy_version_data` twice leaves the target's
`version_data` row exactly as after one invocation (the flat-field copy
is an idempotent `INSERT OR REPLACE`), but appends the same copied rows
to each of the five child collections a second time: the collections are
append-only with no preceding delete, so each copied child row is
duplicated rather than idempotent. -/
theorem copy_twice_effect (st : DBState) (src : Int) (tgt : Nat) (sv : VersionRow)
    (hs : findVersionI st.image_versions src = some sv)
    (hne : src ≠ Int.ofNat tgt) :
    (copy_version_data (copy_version_data st src tgt) src tgt).version_data =
      (copy_version_data st src tgt).version_data ∧
    rowsAt (copy_version_data (copy_version_data st src tgt) src tgt).version_phone_numbers tgt =
      rowsAt (copy_version_data st src tgt).version_phone_numbers tgt ++
        (if rowsAtI st.version_phone_numbers src = [] then rowsAt st.phone_numbers sv.image_id
         else rowsAtI st.version_phone_numbers src) ∧
    rowsAt (copy_version_data (copy_version_data st src tgt) src tgt).version_email_addresses tgt =
      rowsAt (copy_version_data st src tgt).version_email_addresses tgt ++
        (if rowsAtI st.version_email_addresses src = [] then rowsAt st.email_addresses sv.image_id
         else rowsAtI st.version_email_addresses src) ∧
    rowsAt (copy_version_data (copy_version_data st src tgt) src tgt).version_postal_addresses tgt =
      rowsAt (copy_version_data st src tgt).version_postal_addresses tgt ++
        (if rowsAtI st.version_postal_addresses src = [] then rowsAt st.postal_addresses sv.image_id
         else rowsAtI st.version_postal_addresses src) ∧
    rowsAt (copy_version_data (copy_version_data st src tgt) src tgt).version_url_addresses tgt =
      rowsAt (copy_version_data st src tgt).version_url_addresses tgt ++
        (if rowsAtI st.version_url_addresses src = [] then rowsAt st.url_addresses sv.image_id
         else rowsAtI st.version_url_addresses src) ∧
    rowsAt (copy_version_data (copy_version_data st src tgt) src tgt).version_social_profiles tgt =
      rowsAt (copy_version_data st src tgt).version_social_profiles tgt ++
        (if rowsAtI st.version_social_profiles src = [] then rowsAt st.social_profiles sv.image_id
         else rowsAtI st.version_social_profiles src) := by
  have hfound := copy_version_data_found st src tgt sv hs
  have himv : (copy_version_data st src tgt).image_versions = st.image_versions :=
    copy_version_data_image_versions st src tgt
  have hsA : findVersionI (copy_version_data st src tgt).image_versions src = some sv := by
    rw [himv]
    exact hs
  have hfoundA := copy_version_data_found (copy_version_data st src tgt) src tgt sv hsA
  have hbase := copy_version_data_base_tables st src tgt
  have hvpn : (copy_version_data st src tgt).version_phone_numbers =
      st.version_phone_numbers ++
        (copiedGroup st.version_phone_numbers st.phone_numbers src sv.image_id).map
          (fun x => (tgt, x)) := by
    rw [hfound]
  have hvem : (copy_version_data st src tgt).version_email_addresses =
      st.version_email_addresses ++
        (copiedGroup st.version_email_addresses st.email_addresses src sv.image_id).map
          (fun x => (tgt, x)) := by
    rw [hfound]
  have hvpo : (copy_version_data st src tgt).version_postal_addresses =
      st.version_postal_addresses ++
        (copiedGroup st.version_postal_addresses st.postal_addresses src sv.image_id).map
          (fun x => (tgt, x)) := by
    rw [hfound]
  have hvur : (copy_version_data st src tgt).version_url_addresses =
      st.version_url_addresses ++
        (copiedGroup st.version_url_addresses st.url_addresses src sv.image_id).map
          (fun x => (tgt, x)) := by
    rw [hfound]
  have hvso : (copy_version_data st src tgt).version_social_profiles =
      st.version_social_profiles ++
        (copiedGroup st.version_social_profiles st.social_profiles src sv.image_id).map
          (fun x => (tgt, x)) := by
    rw [hfound]
  have hvd : (copy_version_data st src tgt).version_data =
      (match lookupRowI st.version_data src with
       | some d => removeKey st.version_data tgt ++ [(tgt, d)]
       | none =>
         match st.images.find? (fun im => im.id == sv.image_id) with
         | some im => removeKey st.version_data tgt ++ [(tgt, ImageRow.flat im)]
         | none => st.version_data) := by
    rw [hfound]
  have hlvd : lookupRowI (copy_version_data st src tgt).version_data src =
      lookupRowI st.version_data src := by
    rw [hvd]
    cases hd : lookupRowI st.version_data src with
    | some d =>
      exact (lookupRowI_removeKey_append st.version_data tgt d src hne).trans hd
    | none =>
      cases hf : st.images.find? (fun im => im.id == sv.image_id) with
      | some im =>
        exact (lookupRowI_removeKey_append st.version_data tgt ( ImageRow.flat im) src hne).trans hd
      | none => exact hd
  rw [hfoundA, hbase.1, hbase.2.1, hbase.2.2.1, hbase.2.2.2.1, hbase.2.2.2.2.1, hbase.2.2.2.2.2]
  refine ⟨?_, ?_, ?_, ?_, ?_, ?_⟩
  · rw [hlvd, hvd]
    cases hd : lookupRowI st.version_data src with
    | some d =>
      show removeKey (removeKey st.version_data tgt ++ [(tgt, d)]) tgt ++ [(tgt, d)] =
        removeKey st.version_data tgt ++ [(tgt, d)]
      rw [removeKey_append_self]
    | none =>
      cases hf : st.images.find? (fun im => im.id == sv.image_id) with
      | some im =>
        show removeKey (removeKey st.version_data tgt ++ [(tgt, ImageRow.flat im)]) tgt ++
            [(tgt, ImageRow.flat im)] =
          removeKey st.version_data tgt ++ [(tgt, ImageRow.flat im)]
        rw [removeKey_append_self]
      | none => rfl
  · have h1 : rowsAtI (copy_version_data st src tgt).version_phone_numbers src =
        rowsAtI st.version_phone_numbers src := by
      rw [hvpn]
      exact rowsAtI_append_map _ _ _ _ (Ne.symm hne)
    have h2 := rowsAt_append_copied (copy_version_data st src tgt).version_phone_numbers
      st.phone_numbers src sv.image_id tgt
    rw [h1] at h2
    exact h2
  · have h1 : rowsAtI (copy_version_data st src tgt).version_email_addresses src =
        rowsAtI st.version_email_addresses src := by
      rw [hvem]
      exact rowsAtI_append_map _ _ _ _ (Ne.symm hne)
    have h2 := rowsAt_append_copied (copy_version_data st src tgt).version_email_addresses
      st.email_addresses src sv.image_id tgt
    rw [h1] at h2
    exact h2
  · have h1 : rowsAtI (copy_version_data st src tgt).version_postal_addresses src =
        rowsAtI st.version_postal_addresses src := by
      rw [hvpo]
      exact rowsAtI_append_map _ _ _ _ (Ne.symm hne)
    have h2 := rowsAt_append_copied (copy_version_data st src tgt).version_postal_addresses
      st.postal_addresses src sv.image_id tgt
    rw [h1] at h2
    exact h2
  · have h1 : rowsAtI (copy_version_data st src tgt).version_url_addresses src =
        rowsAtI st.version_url_addresses src := by
      rw [hvur]
      exact rowsAtI_append_map _ _ _ _ (Ne.symm hne)
    have h2 := rowsAt_append_copied (copy_version_data st src tgt).version_url_addresses
      st.url_addresses src sv.image_id tgt
    rw [h1] at h2
    exact h2
  · have h1 : rowsAtI (copy_version_data st src tgt).version_social_profiles src =
        rowsAtI st.version_social_profiles src := by
      rw [hvso]
      exact rowsAtI_append_map _ _ _ _ (Ne.symm hne)
    have h2 := rowsAt_append_copied (copy_version_data st src tgt).version_social_profiles
      st.social_profiles src sv.image_id tgt
    rw [h1] at h2
    exact h2

/-- A second, inactive version row used as copy target. -/
def exampleVersion2 : VersionRow :=
  { id := 2, image_id := 1, tag := "copy", created_at := 1,
    notes := none, is_active := false }

/-- The spec's per-group example: base image 1 has phone `+1-555-0100` and
no emails; source version 1 has email `a@b.com` and no phones; version 2
is the copy target. -/
def exampleStoreFallback : DBState :=
  { images := [exampleImage]
    phone_numbers := [(1, "+1-555-0100")]
    image_versions := [exampleVersion, exampleVersion2]
    version_email_addresses := [(1, "a@b.com")]
    next_image_id := 2
    next_version_id := 3 }

/-- C4 witness: copying from source version 1 onto version 2 yields the
base entity's phone (fallback) together with the source's email. -/
theorem copy_per_group_fallback_witness :
    rowsAt (copy_version_data exampleStoreFallback 1 2).version_phone_numbers 2 = ["+1-555-0100"] ∧
    rowsAt (copy_version_data exampleStoreFallback 1 2).version_email_addresses 2 = ["a@b.com"] := by
  obtain ⟨-, -, hp, he, -, -, -⟩ :=
    copy_per_group_fallback exampleStoreFallback 1 2 exampleVersion (by decide)
  refine ⟨?_, ?_⟩
  · rw [hp]
    decide
  · rw [he]
    decide

/-- C3 counterexample: on the example store, one copy gives target version
2 the single source email, a second copy gives it the email twice — the
claimed equality of the child collections after one and two invocations
is false. -/
theorem copy_twice_duplicates_rows :
    rowsAt (copy_version_data (copy_version_data exampleStoreFallback 1 2) 1 2).version_email_addresses 2
      = ["a@b.com", "a@b.com"] ∧
    rowsAt (copy_version_data exampleStoreFallback 1 2).version_email_addresses 2 = ["a@b.com"] :=
  ⟨by decide, by decide⟩

/-- C3 witness: the double-copy theorem applied to the example store. -/
theorem copy_twice_effect_witness :
    (copy_version_data (copy_version_data exampleStoreFallback 1 2) 1 2).version_data =
      (copy_version_data exampleStoreFallback 1 2).version_data ∧
    rowsAt (copy_version_data (copy_version_data exampleStoreFallback 1 2) 1 2).version_email_addresses 2 =
      rowsAt (copy_version_data exampleStoreFallback 1 2).version_email_addresses 2 ++ ["a@b.com"] := by
  obtain ⟨hd, -, he, -, -, -⟩ :=
    copy_twice_effect exampleStoreFallback 1 2 exampleVersion (by decide) (by decide)
  refine ⟨hd, ?_⟩
  rw [he]
  decide

/-! ### Claim C5 -/

/-- C5: deleting a version that is the only version belonging to its
entity returns the distinct `only_version` error with its message and
leaves the entire store unchanged (the returned store is the input
store). -/
theorem delete_only_version_rejected (st : DBState) (vid : Nat) (v : VersionRow)
    (hfind : st.image_versions.find? (fun u => u.id == vid) = some v)
    (honly : st.image_versions.countP (fun u => u.image_id == v.image_id) = 1) :
    delete_version st vid =
      (OperationResult.opError "only_version"
        ("Cannot delete the only version for image " ++ toString v.image_id), st) := by
  have hred : delete_version st vid =
      (if st.image_versions.countP (fun u => u.image_id == v.image_id) ≤ 1 then
        (OperationResult.opError "only_version"
          ("Cannot delete the only version for image " ++ toString v.image_id), st)
      else (OperationResult.success,
        if v.is_active then set_new_active_version (delete_version_data st vid) v.image_id
        else delete_version_data st vid)) := by
    unfold delete_version
    rw [hfind]
  rw [hred, if_pos (by omega)]

/-- C5 witness: the guard on the example store's sole version. -/
theorem delete_only_version_rejected_witness :
    delete_version exampleStore 1 =
      (OperationResult.opError "only_version" "Cannot delete the only version for image 1",
        exampleStore) :=
  delete_only_version_rejected exampleStore 1 exampleVersion (by decide) (by decide)

/-! ### Claim C6 -/

/-- C6: on a store satisfying the invariant, deleting an entity's active
version when the entity has another version succeeds, and exactly the
remaining version of that entity with the strictly most recent
`created_at` becomes active, within the same `delete_version` call: its
row (now active) is in the resulting store, and every active version of
the entity in the result has its id. -/
theorem delete_active_promotes_most_recent (st : DBState) (vid : Nat) (v w : VersionRow)
    (hinv : SingleActive st)
    (hfind : st.image_versions.find? (fun u => u.id == vid) = some v)
    (hact : v.is_active = true)
    (hw : w ∈ st.image_versions) (hwimg : w.image_id = v.image_id) (hwne : w.id ≠ vid)
    (hmax : ∀ u ∈ st.image_versions, u.image_id = v.image_id → u.id ≠ vid → u ≠ w →
      u.created_at < w.created_at) :
    (delete_version st vid).1 = OperationResult.success ∧
    { w with is_active := true } ∈ (delete_version st vid).2.image_versions ∧
    ∀ u ∈ (delete_version st vid).2.image_versions,
      u.image_id = v.image_id → u.is_active = true → u.id = w.id := by
  have hvm := List.mem_of_find?_eq_some hfind
  have hvid : v.id = vid := by
    have := List.find?_some hfind
    rwa [beq_iff_eq] at this
  have hvw : v ≠ w := by
    intro he
    exact hwne (by rw [← he, hvid])
  have hcount : 1 < st.image_versions.countP (fun u => u.image_id == v.image_id) := by
    rw [List.countP_eq_length_filter]
    refine one_lt_length_of_mem_ne ?_ ?_ hvw
    · exact List.mem_filter.mpr ⟨hvm, by simp⟩
    · exact List.mem_filter.mpr ⟨hw, by rw [beq_iff_eq]; exact hwimg⟩
  rw [delete_version_success_inv st vid hfind hcount, if_pos hact]
  have hw' : w ∈ st.image_versions.filter (fun u => u.id != vid) :=
    List.mem_filter.mpr ⟨hw, by rw [bne_iff_ne]; exact hwne⟩
  have hwf : w ∈ (st.image_versions.filter (fun u => u.id != vid)).filter
      (fun u => u.image_id == v.image_id) :=
    List.mem_filter.mpr ⟨hw', by rw [beq_iff_eq]; exact hwimg⟩
  have harg : ((st.image_versions.filter (fun u => u.id != vid)).filter
      (fun u => u.image_id == v.image_id)).argmax (fun u => u.created_at) = some w := by
    cases hm : ((st.image_versions.filter (fun u => u.id != vid)).filter
        (fun u => u.image_id == v.image_id)).argmax (fun u => u.created_at) with
    | none =>
      rw [List.argmax_eq_none] at hm
      rw [hm] at hwf
      cases hwf
    | some m =>
      have hmmem := List.argmax_mem (Option.mem_def.mpr hm)
      have hmle := List.le_of_mem_argmax hwf (Option.mem_def.mpr hm)
      by_cases hmw : m = w
      · rw [hmw]
      · exfalso
        have hm1 : m ∈ st.image_versions.filter (fun u => u.id != vid) :=
          (List.mem_filter.mp hmmem).1
        have hm2 : m.image_id = v.image_id := by
          have := (List.mem_filter.mp hmmem).2
          rwa [beq_iff_eq] at this
        have hm3 : m ∈ st.image_versions := (List.mem_filter.mp hm1).1
        have hm4 : m.id ≠ vid := by
          have := (List.mem_filter.mp hm1).2
          rwa [bne_iff_ne] at this
        have := hmax m hm3 hm2 hm4 hmw
        omega
  have hversions : (set_new_active_version (delete_version_data st vid) v.image_id).image_versions =
      (st.image_versions.filter (fun u => u.id != vid)).map (activateRow w.id) := by
    show setNewActiveL (st.image_versions.filter (fun u => u.id != vid)) v.image_id =
      (st.image_versions.filter (fun u => u.id != vid)).map (activateRow w.id)
    unfold setNewActiveL
    rw [harg]
  refine ⟨rfl, ?_, ?_⟩
  · show { w with is_active := true } ∈
      (set_new_active_version (delete_version_data st vid) v.image_id).image_versions
    rw [hversions]
    have hact1 : activateRow w.id w = { w with is_active := true } :=
      activateRow_pos _ _ (by simp)
    rw [← hact1]
    exact List.mem_map_of_mem _ hw'
  · show ∀ u ∈ (set_new_active_version (delete_version_data st vid) v.image_id).image_versions,
      u.image_id = v.image_id → u.is_active = true → u.id = w.id
    rw [hversions]
    intro u hu himg hact2
    rcases List.mem_map.mp hu with ⟨y, hy, rfl⟩
    by_cases hyid : (y.id == w.id) = true
    · rw [activateRow_id]
      rwa [beq_iff_eq] at hyid
    · exfalso
      rw [activateRow_image_id] at himg
      rw [activateRow_neg _ _ hyid] at hact2
      have hy1 : y ∈ st.image_versions := (List.mem_filter.mp hy).1
      have hy2 : y.id ≠ vid := by
        have := (List.mem_filter.mp hy).2
        rwa [bne_iff_ne] at this
      have hyv : y ≠ v := fun he => hy2 (by rw [he, hvid])
      have hyin : y ∈ st.image_versions.filter
          (fun a => a.image_id == v.image_id && a.is_active) := by
        refine List.mem_filter.mpr ⟨hy1, ?_⟩
        rw [Bool.and_eq_true]
        exact ⟨by rw [beq_iff_eq]; exact himg, hact2⟩
      have hvin : v ∈ st.image_versions.filter
          (fun a => a.image_id == v.image_id && a.is_active) := by
        refine List.mem_filter.mpr ⟨hvm, ?_⟩
        rw [Bool.and_eq_true]
        exact ⟨by simp, hact⟩
      have h2 := one_lt_length_of_mem_ne hyin hvin hyv
      have h3 := hinv v hvm
      unfold countActive at h3
      rw [List.countP_eq_length_filter] at h3
      omega

/-- The most recently created version row of the three-version example. -/
def exampleVersion3 : VersionRow :=
  { id := 3, image_id := 1, tag := "extracted", created_at := 2,
    notes := none, is_active := false }

/-- Entity 1 with three versions: version 1 active (created 0), version 2
(created 1) and version 3 (created 2, the most recent). -/
def exampleStoreThree : DBState :=
  { images := [exampleImage]
    image_versions := [exampleVersion, exampleVersion2, exampleVersion3]
    next_image_id := 2
    next_version_id := 4 }

/-- C6 witness: deleting active version 1 of the three-version entity
succeeds and promotes version 3, the most recently created remaining
one. -/
theorem delete_active_promotes_most_recent_witness :
    (delete_version exampleStoreThree 1).1 = OperationResult.success ∧
    { exampleVersion3 with is_active := true } ∈ (delete_version exampleStoreThree 1).2.image_versions :=
  ⟨(delete_active_promotes_most_recent exampleStoreThree 1 exampleVersion exampleVersion3
      (by decide) (by decide) (by decide) (by decide) (by decide) (by decide) (by decide)).1,
   (delete_active_promotes_most_recent exampleStoreThree 1 exampleVersion exampleVersion3
      (by decide) (by decide) (by decide) (by decide) (by decide) (by decide) (by decide)).2.1⟩

/-! ### Claim C9 -/

/-- C9: deleting a non-active version of an entity that has at least two
versions succeeds, removes exactly that version's rows (its version row,
its `version_data`, `version_metadata` and five child-collection row
sets), and touches nothing else: every remaining version row — including
its `is_active` flag, so the previously active version stays active — and
every base-entity table is returned unchanged. -/
theorem delete_inactive_version_frame (st : DBState) (vid : Nat) (v : VersionRow)
    (hfind : st.image_versions.find? (fun u => u.id == vid) = some v)
    (hinact : v.is_active = false)
    (hcount : 1 < st.image_versions.countP (fun u => u.image_id == v.image_id)) :
    (delete_version st vid).1 = OperationResult.success ∧
    (delete_version st vid).2.image_versions = st.image_versions.filter (fun u => u.id != vid) ∧
    (delete_version st vid).2.version_data = removeKey st.version_data vid ∧
    (delete_version st vid).2.version_metadata = removeKey st.version_metadata vid ∧
    (delete_version st vid).2.version_phone_numbers = removeKey st.version_phone_numbers vid ∧
    (delete_version st vid).2.version_email_addresses = removeKey st.version_email_addresses vid ∧
    (delete_version st vid).2.version_postal_addresses = removeKey st.version_postal_addresses vid ∧
    (delete_version st vid).2.version_url_addresses = removeKey st.version_url_addresses vid ∧
    (delete_version st vid).2.version_social_profiles = removeKey st.version_social_profiles vid ∧
    (delete_version st vid).2.images = st.images ∧
    (delete_version st vid).2.phone_numbers = st.phone_numbers ∧
    (delete_version st vid).2.email_addresses = st.email_addresses ∧
    (delete_version st vid).2.postal_addresses = st.postal_addresses ∧
    (delete_version st vid).2.url_addresses = st.url_addresses ∧
    (delete_version st vid).2.social_profiles = st.social_profiles := by
  rw [delete_version_success_inv st vid hfind hcount,
    if_neg (fun h => Bool.false_ne_true (hinact ▸ h))]
  exact ⟨rfl, rfl, rfl, rfl, rfl, rfl, rfl, rfl, rfl, rfl, rfl, rfl, rfl, rfl, rfl⟩

/-- C9 witness: deleting inactive version 2 of the three-version entity
leaves versions 1 (still active) and 3 untouched. -/
theorem delete_inactive_version_frame_witness :
    (delete_version exampleStoreThree 2).1 = OperationResult.success ∧
    (delete_version exampleStoreThree 2).2.image_versions = [exampleVersion, exampleVersion3] := by
  have h := delete_inactive_version_frame exampleStoreThree 2 exampleVersion2
    (by decide) (by decide) (by decide)
  refine ⟨h.1, ?_⟩
  rw [h.2.1]
  decide

/-! ### Claims C7 and C10 -/

theorem update_version_shape (st : DBState) (vid : Nat) (upd : UpdateData)
    (hex : (st.image_versions.any (fun v => v.id == vid)) = true) :
    update_version st vid upd = (true, { st with
      version_data := updMainGroup upd st.version_data vid
      version_phone_numbers := updStrGroup ( UpdateData.phone_numbers upd) st.version_phone_numbers vid
      version_email_addresses := updStrGroup ( UpdateData.email_addresses upd) st.version_email_addresses vid
      version_postal_addresses := updPostalGroup ( UpdateData.postal_addresses upd) st.version_postal_addresses vid
      version_url_addresses := updStrGroup ( UpdateData.url_addresses upd) st.version_url_addresses vid
      version_social_profiles := updSocialGroup ( UpdateData.social_profiles upd) st.version_social_profiles vid
      image_versions := updMetaGroup upd st.image_versions vid }) := by
  unfold update_version
  rw [hex, if_neg (by simp)]

/-- C7: `update_version` on an existing version is partial per collection
group: supplying the empty list (to which a JSON `null` also collapses)
under `phone_numbers` deletes exactly that version's phone rows, while
omitting the key leaves the phone table literally unchanged — and the
same absent-key/empty-list distinction holds for the email, postal
address, URL and social profile groups. -/
theorem update_version_partial_groups (st : DBState) (vid : Nat) (upd : UpdateData)
    (hex : (st.image_versions.any (fun v => v.id == vid)) = true) :
    (update_version st vid upd).1 = true ∧
    (UpdateData.phone_numbers upd = some [] →
      (update_version st vid upd).2.version_phone_numbers = removeKey st.version_phone_numbers vid) ∧
    (UpdateData.phone_numbers upd = none →
      (update_version st vid upd).2.version_phone_numbers = st.version_phone_numbers) ∧
    (UpdateData.email_addresses upd = some [] →
      (update_version st vid upd).2.version_email_addresses = removeKey st.version_email_addresses vid) ∧
    (UpdateData.email_addresses upd = none →
      (update_version st vid upd).2.version_email_addresses = st.version_email_addresses) ∧
    (UpdateData.postal_addresses upd = some [] →
      (update_version st vid upd).2.version_postal_addresses = removeKey st.version_postal_addresses vid) ∧
    (UpdateData.postal_addresses upd = none →
      (update_version st vid upd).2.version_postal_addresses = st.version_postal_addresses) ∧
    (UpdateData.url_addresses upd = some [] →
      (update_version st vid upd).2.version_url_addresses = removeKey st.version_url_addresses vid) ∧
    (UpdateData.url_addresses upd = none →
      (update_version st vid upd).2.version_url_addresses = st.version_url_addresses) ∧
    (UpdateData.social_profiles upd = some [] →
      (update_version st vid upd).2.version_social_profiles = removeKey st.version_social_profiles vid) ∧
    (UpdateData.social_profiles upd = none →
      (update_version st vid upd).2.version_social_profiles = st.version_social_profiles) := by
  rw [update_version_shape st vid upd hex]
  refine ⟨rfl, ?_, ?_, ?_, ?_, ?_, ?_, ?_, ?_, ?_, ?_⟩ <;> intro h <;> rw [h]
  · exact List.append_nil _
  · rfl
  · exact List.append_nil _
  · rfl
  · exact List.append_nil _
  · rfl
  · exact List.append_nil _
  · rfl
  · exact List.append_nil _
  · rfl

/-- Entity 1, version 1, which already owns two phone rows and one email
row. -/
def exampleStoreRows : DBState :=
  { images := [exampleImage]
    image_versions := [exampleVersion]
    version_phone_numbers := [(1, "555-0001"), (1, "555-0002")]
    version_email_addresses := [(1, "e@x.com")]
    next_image_id := 2
    next_version_id := 2 }

/-- C7 witness: `phone_numbers = []` clears the version's two phone rows
while the untouched email key leaves the email rows exactly as they
were. -/
theorem update_version_partial_groups_witness :
    (update_version exampleStoreRows 1 { phone_numbers := some [] }).1 = true ∧
    (update_version exampleStoreRows 1 { phone_numbers := some [] }).2.version_phone_numbers = [] ∧
    (update_version exampleStoreRows 1 { phone_numbers := some [] }).2.version_email_addresses =
      [(1, "e@x.com")] := by
  have h := update_version_partial_groups exampleStoreRows 1 { phone_numbers := some [] } (by decide)
  refine ⟨h.1, ?_, ?_⟩
  · rw [h.2.1 rfl]
    decide
  · rw [h.2.2.2.2.1 rfl]
    decide

/-- C10: `update_version` on an existing version inserts one
`version_social_profiles` row per supplied dictionary element, verbatim —
elements whose service, url and username are all empty (the embedding of
dictionaries whose keys are absent, since the code reads them with
`profile.get(key, '')`) are not skipped — whereas the phone, email and
URL groups skip blank entries (and trim the rest) and the postal group
skips all-empty address rows. -/
theorem update_version_social_inserts_all (st : DBState) (vid : Nat) (upd : UpdateData)
    (hex : (st.image_versions.any (fun v => v.id == vid)) = true) :
    (∀ ps, UpdateData.social_profiles upd = some ps →
      rowsAt (update_version st vid upd).2.version_social_profiles vid = ps) ∧
    (∀ qs, UpdateData.phone_numbers upd = some qs →
      rowsAt (update_version st vid upd).2.version_phone_numbers vid =
        (qs.filter (fun s => !(pyStrip s == ""))).map (fun s => pyStrip s)) ∧
    (∀ qs, UpdateData.email_addresses upd = some qs →
      rowsAt (update_version st vid upd).2.version_email_addresses vid =
        (qs.filter (fun s => !(pyStrip s == ""))).map (fun s => pyStrip s)) ∧
    (∀ qs, UpdateData.url_addresses upd = some qs →
      rowsAt (update_version st vid upd).2.version_url_addresses vid =
        (qs.filter (fun s => !(pyStrip s == ""))).map (fun s => pyStrip s)) ∧
    (∀ ads, UpdateData.postal_addresses upd = some ads →
      rowsAt (update_version st vid upd).2.version_postal_addresses vid =
        ads.filter (fun a => !(postalIsEmpty a))) := by
  rw [update_version_shape st vid upd hex]
  refine ⟨?_, ?_, ?_, ?_, ?_⟩ <;> intro xs h <;> rw [h]
  · show rowsAt (removeKey st.version_social_profiles vid ++ xs.map (fun p => (vid, p))) vid = xs
    rw [rowsAt_append, rowsAt_removeKey, rowsAt_map_self]
    exact List.nil_append xs
  · show rowsAt (removeKey st.version_phone_numbers vid ++
        (cleanStrEntries xs).map (fun s => (vid, s))) vid =
      (xs.filter (fun s => !(pyStrip s == ""))).map (fun s => pyStrip s)
    rw [rowsAt_append, rowsAt_removeKey, rowsAt_map_self]
    exact List.nil_append _
  · show rowsAt (removeKey st.version_email_addresses vid ++
        (cleanStrEntries xs).map (fun s => (vid, s))) vid =
      (xs.filter (fun s => !(pyStrip s == ""))).map (fun s => pyStrip s)
    rw [rowsAt_append, rowsAt_removeKey, rowsAt_map_self]
    exact List.nil_append _
  · show rowsAt (removeKey st.version_url_addresses vid ++
        (cleanStrEntries xs).map (fun s => (vid, s))) vid =
      (xs.filter (fun s => !(pyStrip s == ""))).map (fun s => pyStrip s)
    rw [rowsAt_append, rowsAt_removeKey, rowsAt_map_self]
    exact List.nil_append _
  · show rowsAt (removeKey st.version_postal_addresses vid ++
        (xs.filter (fun a => !(postalIsEmpty a))).map (fun a => (vid, a))) vid =
      xs.filter (fun a => !(postalIsEmpty a))
    rw [rowsAt_append, rowsAt_removeKey, rowsAt_map_self]
    exact List.nil_append _

/-- C10 witness: a social-profile list holding one all-empty dictionary
element yields exactly one inserted row, while the same-shaped all-blank
phone list inserts nothing. -/
theorem update_version_social_inserts_all_witness :
    rowsAt (update_version exampleStoreRows 1
      { social_profiles := some [{ service := "", url := "", username := "" }],
        phone_numbers := some ["  "] }).2.version_social_profiles 1 =
      [{ service := "", url := "", username := "" }] ∧
    rowsAt (update_version exampleStoreRows 1
      { social_profiles := some [{ service := "", url := "", username := "" }],
        phone_numbers := some ["  "] }).2.version_phone_numbers 1 = [] := by
  have h := update_version_social_inserts_all exampleStoreRows 1
    { social_profiles := some [{ service := "", url := "", username := "" }],
      phone_numbers := some ["  "] } (by decide)
  refine ⟨h.1 _ rfl, ?_⟩
  rw [h.2.1 _ rfl]
  decide

/-! ### Claim C8 -/

/-- C8: `save_image` with image bytes whose hash equals the hash of an
already-stored image fails (returns `False`) from the duplicate check,
which runs before any insert: the returned store is the input store — no
image row, no child row and no version was created. -/
theorem save_image_duplicate_hash_noop (st : DBState) (image_hash filename : String)
    (md : VersionData) (source : String) (now : Nat)
    (hdup : (st.images.any (fun im => im.hash == image_hash)) = true) :
    save_image st image_hash filename md source now = (false, st) := by
  unfold save_image
  rw [hdup, if_pos rfl]

/-- C8 witness: re-saving the stored hash `h1` is rejected with the store
unchanged. -/
theorem save_image_duplicate_hash_noop_witness :
    save_image exampleStore "h1" "again.jpg" {} "local" 9 = (false, exampleStore) :=
  save_image_duplicate_hash_noop exampleStore "h1" "again.jpg" {} "local" 9 (by decide)
